import Mathlib

/-!
Verification of the rz-bindgen binding model builder and emitter.

This file shallowly embeds the Python sources (`module.py`, `module_class.py`,
`module_func.py`, `main.py`) of the rz-bindgen repository.  Pure functions
become Lean functions; the process-wide mutable `Module` singleton becomes an
explicit `Module` value threaded through each operation; fatal Python
exceptions (`raise`, failed `assert`, `StopIteration`, `KeyError`,
`IndexError`) become `Except String` errors.

Components of the repository that are not part of the provided sources
(`writer.py`, `header.py`, `module_generic.py`, `module_enum.py`,
`module_director.py`, `module_typemap.py`) appear only as neutral data
carriers, modelled from the spec where noted; every algorithm proved about
below is transcribed from the provided Python sources.

Clang-supplied objects (types, cursors) are modelled structurally: a `CType`
mirrors the `TypeKind` cases the sources inspect, and a `CCursor` carries the
fields the sources read (spelling, location, attributes, type, and the first
source token sitting between the end of the type reference and the cursor's
own location, which is what `Module.add_generic_specialization` obtains via
`SourceRange.from_locations` + `get_tokens`).

Python `str` operations are implemented over `String.data` so that all
definitions reduce in the kernel.
-/

namespace RzBindgen

/-- Python `s.startswith(p)`. -/
def strStartsWith (s p : String) : Bool :=
  p.data.isPrefixOf s.data

/-- Python `s.endswith(p)`. -/
def strEndsWith (s p : String) : Bool :=
  p.data.isSuffixOf s.data

/-- Python `s[n:]` (clamping like a Python slice). -/
def strDrop (s : String) (n : Nat) : String :=
  String.mk (s.data.drop n)

/-- Python `s[:-n]` (clamping like a Python slice). -/
def strDropRight (s : String) (n : Nat) : String :=
  String.mk (s.data.take (s.data.length - n))

/-- Python `s[-1]` as an option (`none` models the `IndexError` case). -/
def strLast (s : String) : Option Char :=
  s.data.getLast?

/-- Python `s[-2]` as an option (`none` models the `IndexError` case). -/
def strSecondLast (s : String) : Option Char :=
  s.data.dropLast.getLast?

/-- Python `", ".join(xs)`. -/
def joinComma : List String → String
  | [] => ""
  | [x] => x
  | x :: xs => x ++ ", " ++ joinComma xs

/-- Python `set.add` on a set modelled as a duplicate-free list: insertion is
a no-op when the element is already present. -/
def insertSet (l : List String) (s : String) : List String :=
  if l.contains s then l else l ++ [s]

/-- One line of emitted interface text together with its indentation level.
`writer.py` is not among the provided sources, so indentation is kept
abstract as a level (the spec, section 4.6, only requires an
indentation-aware buffer); all ordering and content claims are independent
of the concrete indentation width. -/
structure Line where
  indent : Nat
  text : String
deriving DecidableEq

/-- A clang type, restricted to the `TypeKind` cases the sources inspect.
Each constructor carries its own const qualification where the sources may
call `is_const_qualified` on it; `typedefTy`/`recordTy` carry the spelling of
the declaration of their canonical type (`get_canonical().get_declaration()
.spelling`), which is the key used by the generic registry. -/
inductive CType where
  | pointer (const : Bool) (pointee : CType)
  | void (const : Bool)
  | boolTy (const : Bool)
  | typedefTy (const : Bool) (spelling : String) (canonDeclName : String)
  | recordTy (const : Bool) (spelling : String) (canonDeclName : String)
  | intTy (const : Bool) (spelling : String)
  | charTy (const : Bool) (spelling : String)
  | constantArray (elem : CType) (count : Nat)
  | incompleteArray (elem : CType)
  | funProto (ret : CType) (args : List (Bool × String))
  | otherTy (spelling : String)
deriving DecidableEq

/-- Clang `is_const_qualified`. -/
def CType.isConst : CType → Bool
  | .pointer c _ => c
  | .void c => c
  | .boolTy c => c
  | .typedefTy c _ _ => c
  | .recordTy c _ _ => c
  | .intTy c _ => c
  | .charTy c _ => c
  | _ => false

/-- Whether the type kind is `TypeKind.BOOL`. -/
def CType.isBool : CType → Bool
  | .boolTy _ => true
  | _ => false

/-- Spelling of the declaration of the canonical type
(`get_canonical().get_declaration().spelling`); builtin and derived types
have no named declaration, which clang reports as an empty spelling. -/
def CType.canonDecl : CType → String
  | .typedefTy _ _ c => c
  | .recordTy _ _ c => c
  | _ => ""

/-- The parser-supplied spelling of a type (opaque data as far as the
sources are concerned; modelled structurally and injectively enough for the
claims, which never inspect spellings of composite shapes). -/
def CType.spelling : CType → String
  | .pointer c p => p.spelling ++ (if c then " *const" else " *")
  | .void c => if c then "const void" else "void"
  | .boolTy c => if c then "const _Bool" else "_Bool"
  | .typedefTy c s _ => if c then "const " ++ s else s
  | .recordTy c s _ => if c then "const " ++ s else s
  | .intTy c s => if c then "const " ++ s else s
  | .charTy c s => if c then "const " ++ s else s
  | .constantArray e n => e.spelling ++ "[" ++ toString n ++ "]"
  | .incompleteArray e => e.spelling ++ "[]"
  | .funProto r _ => r.spelling ++ " ()"
  | .otherTy s => s

/-- A clang cursor as read by the sources: spelling, location (kept as an
opaque string used in error messages), attribute strings (`func.attrs`,
`arg.attrs`), the cursor's type, and the first token between the end of the
cursor's type reference and the cursor's location (`none` when no token is
there, in which case Python's `next()` raises `StopIteration`). -/
structure CCursor where
  spelling : String
  location : String
  attrs : List String
  ty : CType
  tokenAfterType : Option String
deriving DecidableEq

/-- A function declaration (`Func` in `clang.wrapper`): a cursor whose
children include an ordered parameter list and that has a result type. -/
structure FuncDecl where
  spelling : String
  location : String
  attrs : List String
  params : List CCursor
  resultType : CType
  tokenAfterType : Option String
deriving DecidableEq

/-- View a function declaration as the cursor that
`rizin.stringify_decl(func, func.result_type, ...)` receives. -/
def FuncDecl.toCursor (f : FuncDecl) : CCursor :=
  ⟨f.spelling, f.location, f.attrs, f.resultType, f.tokenAfterType⟩

/-- A child of a struct declaration, as discriminated by `gen_struct`. -/
inductive StructChild where
  | fieldDecl (c : CCursor)
  | structDecl
  | unionDecl
  | otherDecl (kind : String) (location : String)
deriving DecidableEq

/-- A struct declaration (`Struct` in `clang.wrapper`). -/
structure StructDecl where
  spelling : String
  children : List StructChild
deriving DecidableEq

/-- An attached typemap.  Modelled from the spec: `module_typemap.py` is not
among the provided sources; section 3 only records that a `BoundFunction`
carries attached typemaps whose `check` runs eagerly against the function and
whose activation/deactivation text surrounds the wrapper. -/
structure Typemap where
  checkOk : Bool
  activateLines : List Line
  deactivateLines : List Line
deriving DecidableEq

/-- A SWIG function wrapper (`ModuleFunc`): the buffered wrapper text, the
buffered `%contract` precondition block and the attached typemaps. -/
structure ModuleFunc where
  writerLines : List Line
  contractLines : List Line
  typemaps : List Typemap
deriving DecidableEq

/-- A SWIG class (`ModuleClass`): interface name, the spelling of its
underlying struct declaration (which also identifies the struct for method
discovery), the buffered struct mirror text, and the bound functions. -/
structure ModuleClass where
  name : String
  structName : String
  structWriter : List Line
  funcs : List ModuleFunc
deriving DecidableEq

/-- A generic container type (`ModuleGeneric`): name, whether it is
pointer-based, and its mutable specialization set (a Python `set`, modelled
as a duplicate-free list).  `module_generic.py` is not among the provided
sources, so the text its `write` produces is carried opaquely in `text`. -/
structure ModuleGeneric where
  name : String
  pointer : Bool
  specializations : List String
  text : List Line
deriving DecidableEq

/-- The SWIG `%module` singleton (`Module`).  `headers` is a Python `set` of
`Header` objects; a run of `Module.write` iterates that set in whatever
order the interpreter enumerates it, so the field holds the enumeration
(header names, in iteration order) seen by the run under consideration.
`enums` and `directors` are registration-ordered lists whose `write` output
is carried opaquely (`module_enum.py`/`module_director.py` are not among the
provided sources); `generics` is the registration-ordered `OrderedDict` of
generics; `genericMappings` maps struct names to generic names.
Documentation (sphinx) state is omitted: all claims concern the interface
emission path, which the sources guard with `enable_sphinx` disabled by
default. -/
structure Module where
  headers : List String
  classes : List ModuleClass
  enumTexts : List (List Line)
  generics : List ModuleGeneric
  genericMappings : List (String × String)
  directorTexts : List (List Line)
deriving DecidableEq

/-- Python `self.generics[name]` lookup (as an option). -/
def Module.findGeneric (m : Module) (name : String) : Option ModuleGeneric :=
  m.generics.find? (fun g => g.name == name)

/-- Replace the generic with the given name (in-place mutation of the entry
of the `OrderedDict`). -/
def Module.updateGeneric (m : Module) (g : ModuleGeneric) : Module :=
  { m with generics := m.generics.map (fun x => if x.name == g.name then g else x) }

/-- `Module.get_generic_name`: unwrap pointer levels; `void` maps to
`"void"`; otherwise look up the spelling of the canonical declaration in
`generic_mappings`. -/
def Module.getGenericName (m : Module) : CType → Option String
  | .pointer _ p => m.getGenericName p
  | .void _ => some "void"
  | t => List.lookup t.canonDecl m.genericMappings

/-- The inner text of a well-delimited annotation token: strip the `/*<` and
`>*/` delimiters (`token[3:-3]`) and an optional `const ` prefix (the first
two processing steps of `add_generic_specialization`). -/
def annInner (token : String) : String :=
  let name0 := strDropRight (strDrop token 3) 3
  if strStartsWith name0 "const " then strDrop name0 6 else name0

/-- `Module.add_generic_specialization`: read the token between the type
reference and the declared name; it must be delimited by `/*<` and `>*/`;
strip an optional `const ` prefix; for a pointer-based generic the result
must end in `*` (`name[-1]`) with a space right before it (`name[-2]`), and
those two characters are stripped; the result is added to the generic's
specialization set and returned. -/
def Module.addGenericSpecialization (m : Module) (cursor : CCursor)
    (genericName : String) : Except String (String × Module) :=
  match cursor.tokenAfterType with
  | none => .error "StopIteration: no token between type reference and declaration"
  | some token =>
    if !(strStartsWith token "/*<" && strEndsWith token ">*/") then
      .error (genericName ++ " at " ++ cursor.location ++ " lacks /*<type>*/ annotation")
    else
      match m.findGeneric genericName with
      | none => .error ("KeyError: " ++ genericName)
      | some generic =>
        if generic.pointer then
          match strLast (annInner token) with
          | none => .error "IndexError: string index out of range"
          | some c1 =>
            if c1 != '*' then
              .error ("Specializations of generic " ++ generic.name ++
                " should have a pointer, but specialization at " ++
                cursor.location ++ " does not")
            else
              match strSecondLast (annInner token) with
              | none => .error "IndexError: string index out of range"
              | some c2 =>
                if c2 != ' ' then
                  .error ("Specialization at " ++ cursor.location ++
                    "lacks space between type and pointer")
                else
                  .ok (strDropRight (annInner token) 2,
                    m.updateGeneric { generic with
                      specializations := insertSet generic.specializations
                        (strDropRight (annInner token) 2) })
        else
          .ok (annInner token,
            m.updateGeneric { generic with
              specializations := insertSet generic.specializations (annInner token) })

/-- The pointer-unravelling loop of `Module.stringify_decl`: step into each
pointee, prepending `*` (and `const ` when a generic/bool type name is in
play and the pointee is const-qualified). -/
def unravel (hasTypeName : Bool) : CType → String → CType × String
  | .pointer _ p, ptrs =>
    let ptrs := "*" ++ ptrs
    let ptrs := if hasTypeName && p.isConst then "const " ++ ptrs else ptrs
    unravel hasTypeName p ptrs
  | t, ptrs => (t, ptrs)

/-- Spelling used for an argument of a function-pointer type in
`stringify_decl` (`"bool" if arg.kind == TypeKind.BOOL else arg.spelling`).
The `funProto` constructor stores each argument type as the pair of exactly
the two observations the source makes of it: whether its kind is `BOOL`, and
its spelling. -/
def protoArgSpelling (a : Bool × String) : String :=
  if a.1 then "bool" else a.2

/-- The array/function-pointer declarator reordering of
`Module.stringify_decl` (a single non-looping `if`/`elif`). -/
def reshape : CType → String → CType × String
  | .constantArray e n, nm => (e, nm ++ "[" ++ toString n ++ "]")
  | .incompleteArray e, nm => (e, nm ++ "[]")
  | .funProto r args, nm =>
    (r, "(" ++ nm ++ ")(" ++ joinComma (args.map protoArgSpelling) ++ ")")
  | t, nm => (t, nm)

/-- The pure tail of `Module.stringify_decl` once the (optional) generic
type name is settled: unravel pointer levels, reorder array and
function-pointer declarators, normalize `_Bool`, and join the type and the
decorated name. -/
def declTail (typeName : Option String) (cursor : CCursor) (ty : CType)
    (nameArg : Option String) : String :=
  let nm := nameArg.getD cursor.spelling
  let ptrs0 := if typeName.isSome && ty.isConst then "const " else ""
  let (ty2, ptrs) := unravel typeName.isSome ty ptrs0
  let nm := ptrs ++ nm
  let (ty3, nm) := reshape ty2 nm
  let typeName := if ty3.isBool then some "bool" else typeName
  (typeName.getD ty3.spelling) ++ " " ++ nm

/-- `Module.stringify_decl`: combine a name and a type into a declaration
string, resolving registered generics either to the erased placeholder
(inside a generic `%define`) or to a concrete specialization obtained from
the annotation comment. -/
def Module.stringifyDecl (m : Module) (cursor : CCursor) (ty : CType)
    (nameArg : Option String) (generic : Bool) : Except String (String × Module) :=
  let genericName := m.getGenericName ty
  let tnRes : Except String (Option String × Module) :=
    if genericName = some "void" then .ok (if generic then some "TYPE" else none, m)
    else
      match genericName with
      | some g =>
        if generic then .ok (some (g ++ "_##TYPE"), m)
        else
          match m.addGenericSpecialization cursor g with
          | .ok (s, m') => .ok (some (g ++ "_" ++ s), m')
          | .error e => .error e
      | none => .ok (none, m)
  match tnRes with
  | .error e => .error e
  | .ok (typeName, m1) => .ok (declTail typeName cursor ty nameArg, m1)

/-- The fallthrough portion of `Module.stringify_type_py` (everything after
the generic handling); `none` models Python `None` (the `void` case), and
unknown types are emitted as their quoted spelling. -/
def pyFallback : CType → Option String
  | .pointer _ (.charTy _ _) => some "str"
  | .pointer _ (.typedefTy _ s _) => some s
  | .typedefTy _ s _ => some s
  | .boolTy _ => some "bool"
  | .intTy _ _ => some "int"
  | .charTy _ _ => some "int"
  | .void _ => none
  | t => some ("\"" ++ t.spelling ++ "\"")

/-- `Module.stringify_type_py`: convert a type to a Python annotation,
resolving registered generics to `T` / `G[T]` in a template context or to a
concrete `G[spec]` via the annotation comment. -/
def Module.stringifyTypePy (m : Module) (cursor : CCursor) (ty : CType)
    (generic : Bool) : Except String (Option String × Module) :=
  if m.getGenericName ty = some "void" then
    if generic then .ok (some "T", m) else .ok (pyFallback ty, m)
  else
    match m.getGenericName ty with
    | some g =>
      if generic then .ok (some (g ++ "[T]"), m)
      else
        match m.addGenericSpecialization cursor g with
        | .ok (s, m') => .ok (some (g ++ "[" ++ s ++ "]"), m')
        | .error e => .error e
    | none => .ok (pyFallback ty, m)

/-- The role of a bound function (`FuncKind`). -/
inductive FuncKind where
  | ctor
  | dtor
  | this
  | staticFn
deriving DecidableEq

/-- The arguments surviving the receiver drop: `ModuleFunc.__init__` skips
the first argument for destructors and instance methods. -/
def survive (kind : FuncKind) (ps : List CCursor) : List CCursor :=
  match kind with
  | .dtor | .this => ps.drop 1
  | _ => ps

/-- One iteration of the argument loop of `ModuleFunc.__init__`: a parameter
spelled `self` is renamed to `_self` in both the visible signature and the
inner call-through list (and its default, if any, is not consulted); any
other parameter keeps its spelling and gets its default value appended to
the visible signature when directed.  Returns `(outer, inner)`. -/
def processArg (m : Module) (genericArgs : List String)
    (defaultArgs : List (String × String)) (arg : CCursor) :
    Except String ((String × String) × Module) :=
  if arg.spelling == "self" then
    match m.stringifyDecl arg arg.ty (some "_self") (genericArgs.contains arg.spelling) with
    | .error e => .error e
    | .ok (s, m') => .ok ((s, "_self"), m')
  else
    match m.stringifyDecl arg arg.ty none (genericArgs.contains arg.spelling) with
    | .error e => .error e
    | .ok (s, m') =>
      let s := match List.lookup arg.spelling defaultArgs with
        | some d => s ++ " = " ++ d
        | none => s
      .ok ((s, arg.spelling), m')

/-- The argument loop of `ModuleFunc.__init__`, accumulating the visible
signature entries (`args_outer`) and the call-through identifiers
(`args_inner`) in order. -/
def processArgs (m : Module) (ga : List String) (da : List (String × String)) :
    List CCursor → Except String ((List String × List String) × Module)
  | [] => .ok (([], []), m)
  | a :: rest =>
    match processArg m ga da a with
    | .error e => .error e
    | .ok ((o, i), m1) =>
      match processArgs m1 ga da rest with
      | .error e => .error e
      | .ok ((os, ins), m2) => .ok ((o :: os, i :: ins), m2)

/-- The role-dependent head line and inner argument string of
`ModuleFunc.__init__` (an implicit `$self` receiver is prepended for
destructors and instance methods; methods and static functions stringify
the result type, possibly discovering a specialization). -/
def funcHead (m : Module) (func : FuncDecl) (kind : FuncKind) (nm : String)
    (genericRet : Bool) (argsOuterStr : String) (argsInner : List String) :
    Except String (String × String × Module) :=
  match kind with
  | .ctor => .ok (nm ++ "(" ++ argsOuterStr ++ ") \x7b",
      joinComma argsInner, m)
  | .dtor => .ok ("~" ++ nm ++ "(" ++ argsOuterStr ++ ") \x7b",
      joinComma ("$self" :: argsInner), m)
  | .this =>
    match m.stringifyDecl func.toCursor func.resultType (some nm) genericRet with
    | .error e => .error e
    | .ok (d, m') => .ok (d ++ "(" ++ argsOuterStr ++ ") \x7b",
        joinComma ("$self" :: argsInner), m')
  | .staticFn =>
    match m.stringifyDecl func.toCursor func.resultType (some nm) genericRet with
    | .error e => .error e
    | .ok (d, m') => .ok ("static " ++ d ++ "(" ++ argsOuterStr ++ ") \x7b",
        joinComma argsInner, m')

/-- The call-through return statement of `ModuleFunc.__init__` (cast to the
erased/specialized return type when the return is generic). -/
def funcRet (m : Module) (func : FuncDecl) (genericRet : Bool)
    (argsInnerStr : String) : Except String (String × Module) :=
  if genericRet then
    match m.stringifyDecl func.toCursor func.resultType (some "") genericRet with
    | .error e => .error e
    | .ok (c, m') => .ok ("return (" ++ c ++ ")" ++ func.spelling ++
        "(" ++ argsInnerStr ++ ");", m')
  else .ok ("return " ++ func.spelling ++ "(" ++ argsInnerStr ++ ");", m)

/-- The optional deprecation notice of `ModuleFunc.__init__`. -/
def deprecateLines (func : FuncDecl) (nm : String) : List Line :=
  if func.attrs.contains "RZ_DEPRECATE"
  then [Line.mk 1 ("rizin_try_warn_deprecate(\"" ++ nm ++ "\", \"" ++
    func.spelling ++ "\");")]
  else []

/-- The spellings of the arguments carrying the `RZ_NONNULL` attribute, in
declaration order. -/
def nonnullArgs (args : List CCursor) : List String :=
  (args.filter (fun a => a.attrs.contains "RZ_NONNULL")).map (fun a => a.spelling)

/-- The `%contract` precondition block of `ModuleFunc.__init__`: present
exactly when some argument carries `RZ_NONNULL`, listing one `!= NULL`
requirement per such argument. -/
def contractBlock (nm : String) (argsOuterStr : String)
    (argsNonnull : List String) : List Line :=
  if argsNonnull.isEmpty then []
  else [Line.mk 0 ("%contract " ++ nm ++ "(" ++ argsOuterStr ++ ") \x7b"),
      Line.mk 0 "require:"] ++
    argsNonnull.map (fun s => Line.mk 1 (s ++ " != NULL;")) ++
    [Line.mk 0 "\x7d"]

/-- `ModuleFunc.__init__`: run the typemap checks, process the surviving
arguments, check that every `generic_args`/`default_args` directive names a
member of the inner list (fatal assertion otherwise), then build the wrapper
text (head line per role, optional deprecation notice, call-through return
statement) and the `%contract` precondition block listing the parameters
carrying `RZ_NONNULL`. -/
def moduleFuncInit (m : Module) (func : FuncDecl) (kind : FuncKind) (nm : String)
    (genericRet : Bool) (genericArgs : List String)
    (defaultArgs : List (String × String)) (typemaps : List Typemap) :
    Except String (ModuleFunc × Module) :=
  if typemaps.any (fun t => !t.checkOk) then .error "typemap check failed"
  else
    match processArgs m genericArgs defaultArgs (survive kind func.params) with
    | .error e => .error e
    | .ok ((argsOuter, argsInner), m1) =>
      if genericArgs.any (fun g => !argsInner.contains g) then
        .error "nonexistent generic argument specified"
      else if defaultArgs.any (fun kv => !argsInner.contains kv.1) then
        .error "nonexistent default argument specified"
      else
        match funcHead m1 func kind nm genericRet (joinComma argsOuter) argsInner with
        | .error e => .error e
        | .ok (headLine, argsInnerStr, m2) =>
          match funcRet m2 func genericRet argsInnerStr with
          | .error e => .error e
          | .ok (retLine, m3) =>
            .ok (ModuleFunc.mk
              ([Line.mk 0 headLine] ++ deprecateLines func nm ++
                [Line.mk 1 retLine, Line.mk 0 "\x7d"])
              (contractBlock nm (joinComma argsOuter)
                (nonnullArgs (survive kind func.params)))
              typemaps, m3)

/-- Shift a block of buffered lines to the current indentation level of the
enclosing writer (splicing a `BufferedWriter` into a `DirectWriter`). -/
def shiftLines (k : Nat) (ls : List Line) : List Line :=
  ls.map (fun l => { l with indent := l.indent + k })

/-- `ModuleFunc.write`: contract block, typemap activations, wrapper text,
typemap deactivations. -/
def ModuleFunc.write (f : ModuleFunc) : List Line :=
  f.contractLines ++ (f.typemaps.map Typemap.activateLines).flatten ++
    f.writerLines ++ (f.typemaps.map Typemap.deactivateLines).flatten

/-- `ModuleClass.write`: the buffered struct mirror first, then the
`%extend` block containing every bound function at one deeper indent. -/
def ModuleClass.write (c : ModuleClass) : List Line :=
  c.structWriter ++ [Line.mk 0 ("%extend " ++ c.structName ++ " \x7b")] ++
    shiftLines 1 (c.funcs.map ModuleFunc.write).flatten ++ [Line.mk 0 "\x7d"]

/-- The field loop of `ModuleClass.gen_struct`: walk the struct children,
collecting field spellings (fatal on duplicates), skipping ignored fields,
stringifying the rest (which may discover generic specializations), and
rejecting children that are neither fields nor nested struct/union
declarations.  Returns the collected field-name set and the emitted field
lines (one indent level deep). -/
def genStructFields (m : Module) (ignoreSet : List String) (fields : List String) :
    List StructChild → Except String (List String × List Line × Module)
  | [] => .ok (fields, [], m)
  | .fieldDecl f :: rest =>
    if fields.contains f.spelling then
      .error "AssertionError: duplicate field"
    else
      if ignoreSet.contains f.spelling then
        genStructFields m ignoreSet (fields ++ [f.spelling]) rest
      else
        match m.stringifyDecl f f.ty none false with
        | .error e => .error e
        | .ok (decl, m1) =>
          match genStructFields m1 ignoreSet (fields ++ [f.spelling]) rest with
          | .error e => .error e
          | .ok (fs, ls, m2) => .ok (fs, Line.mk 1 (decl ++ ";") :: ls, m2)
  | .structDecl :: rest => genStructFields m ignoreSet fields rest
  | .unionDecl :: rest => genStructFields m ignoreSet fields rest
  | .otherDecl k loc :: _ =>
    .error ("Unexpected struct child of kind: " ++ k ++ " at " ++ loc)

/-- `ModuleClass.gen_struct`: paired `%rename` directives around the struct
mirror, the field block, and the eager sanity check that every
`ignore_fields`/`rename_fields` entry names an actual field (fatal assertion
otherwise). -/
def genStruct (m : Module) (struct : StructDecl) (ignoreFields : List String)
    (renameFields : List (String × String)) : Except String (List Line × Module) :=
  let renameLines := renameFields.map (fun p =>
    Line.mk 0 ("%rename " ++ struct.spelling ++ "::" ++ p.1 ++ " " ++ p.2 ++ ";"))
  match genStructFields m ignoreFields [] struct.children with
  | .error e => .error e
  | .ok (fields, fieldLines, m1) =>
    if ignoreFields.any (fun i => !fields.contains i) then
      .error "AssertionError: ignored field not in fields"
    else if renameFields.any (fun p => !fields.contains p.1) then
      .error "AssertionError: renamed field not in fields"
    else
      let unrenameLines := renameFields.map (fun p =>
        Line.mk 0 ("%rename " ++ struct.spelling ++ "::" ++ p.1 ++ " \"\";"))
      .ok (renameLines ++
        [Line.mk 0 ("struct " ++ struct.spelling ++ " \x7b")] ++ fieldLines ++
        [Line.mk 0 "\x7d;"] ++ unrenameLines, m1)

/-- A header's declaration index, as used by the class builder: the function
declarations of the header in dictionary (insertion) order, keyed by their
unique spellings, and the mutable consumed-names set `header.used`. -/
structure Header where
  name : String
  funcs : List FuncDecl
  used : List String
deriving DecidableEq

/-- The discovery predicate of `ModuleClass.add_prefixed_methods`: not yet
consumed, name starts with the prefix, carries `RZ_API`, has a first
parameter of pointer type whose canonical pointee declaration is the class's
struct declaration. -/
def methodPred (used : List String) (structName : String) (pre : String)
    (f : FuncDecl) : Bool :=
  !(used.contains f.spelling) && strStartsWith f.spelling pre &&
    f.attrs.contains "RZ_API" &&
    (match f.params with
     | [] => false
     | a :: _ =>
       match a.ty with
       | .pointer _ p => p.canonDecl == structName
       | _ => false)

/-- The discovery predicate of `ModuleClass.add_prefixed_funcs`: not yet
consumed, name starts with the prefix, carries `RZ_API`. -/
def funcPred (used : List String) (pre : String) (f : FuncDecl) : Bool :=
  !(used.contains f.spelling) && strStartsWith f.spelling pre &&
    f.attrs.contains "RZ_API"

/-- The lazily-filtered discovery pass shared by both bulk-discovery
methods: walk the header's functions in order, and for each one satisfying
the predicate (evaluated against the current consumed set, exactly as
Python's lazy `filter` interleaves with the loop body), mark it consumed and
record it under its name with the prefix removed. -/
def discover (p : List String → FuncDecl → Bool) (pre : String)
    (used : List String) : List FuncDecl → List String × List (String × FuncDecl)
  | [] => (used, [])
  | f :: fs =>
    if p used f then
      ((discover p pre (insertSet used f.spelling) fs).1,
        (strDrop f.spelling pre.length, f) ::
          (discover p pre (insertSet used f.spelling) fs).2)
    else discover p pre used fs

/-- Construct a `ModuleFunc` for each discovered function, in discovery
order, threading the module state. -/
def buildFuncs (m : Module) (kind : FuncKind) :
    List (String × FuncDecl) → Except String (List ModuleFunc × Module)
  | [] => .ok ([], m)
  | (rn, f) :: rest =>
    match moduleFuncInit m f kind rn false [] [] [] with
    | .error e => .error e
    | .ok (mf, m1) =>
      match buildFuncs m1 kind rest with
      | .error e => .error e
      | .ok (mfs, m2) => .ok (mf :: mfs, m2)

/-- `ModuleClass.add_prefixed_methods`: the discovery loop interleaved with
`ModuleFunc` construction (role `THIS`, renamed to the suffix after the
prefix). -/
def addPrefixedMethodsLoop (m : Module) (structName : String) (pre : String)
    (used : List String) :
    List FuncDecl → Except String (List String × List ModuleFunc × Module)
  | [] => .ok (used, [], m)
  | f :: fs =>
    if methodPred used structName pre f then
      match moduleFuncInit m f .this (strDrop f.spelling pre.length) false [] [] [] with
      | .error e => .error e
      | .ok (mf, m1) =>
        match addPrefixedMethodsLoop m1 structName pre (insertSet used f.spelling) fs with
        | .error e => .error e
        | .ok (u, mfs, m2) => .ok (u, mf :: mfs, m2)
    else addPrefixedMethodsLoop m structName pre used fs

/-- `ModuleClass.add_prefixed_funcs`: the discovery loop interleaved with
`ModuleFunc` construction (role `STATIC`, renamed to the suffix after the
prefix). -/
def addPrefixedFuncsLoop (m : Module) (pre : String) (used : List String) :
    List FuncDecl → Except String (List String × List ModuleFunc × Module)
  | [] => .ok (used, [], m)
  | f :: fs =>
    if funcPred used pre f then
      match moduleFuncInit m f .staticFn (strDrop f.spelling pre.length) false [] [] [] with
      | .error e => .error e
      | .ok (mf, m1) =>
        match addPrefixedFuncsLoop m1 pre (insertSet used f.spelling) fs with
        | .error e => .error e
        | .ok (u, mfs, m2) => .ok (u, mf :: mfs, m2)
    else addPrefixedFuncsLoop m pre used fs

/-- `ModuleClass.add_method`: mark the name consumed first, then bind the
named function as an instance method. -/
def addMethod (m : Module) (c : ModuleClass) (h : Header) (fname rename : String)
    (defaultArgs : List (String × String)) (typemaps : List Typemap) :
    Except String (ModuleClass × Header × Module) :=
  match h.funcs.find? (fun f => f.spelling == fname) with
  | none => .error ("KeyError: " ++ fname)
  | some f =>
    match moduleFuncInit m f .this rename false [] defaultArgs typemaps with
    | .error e => .error e
    | .ok (mf, m1) =>
      .ok ({ c with funcs := c.funcs ++ [mf] },
        { h with used := insertSet h.used fname }, m1)

/-- The `#include` line emitted for one header. -/
def includeLine (h : String) : Line :=
  Line.mk 0 ("#include <" ++ h ++ ">")

/-- The two deprecation-warning helper blocks `Module.write` emits between
the generics and the classes. -/
def deprecationLines : List Line :=
  [Line.mk 0 "%inline %\x7b",
   Line.mk 0 "bool rizin_warn_deprecate = true;",
   Line.mk 0 "bool rizin_warn_deprecate_instructions = true;",
   Line.mk 0 "%\x7d",
   Line.mk 0 "%\x7b",
   Line.mk 0 "void rizin_try_warn_deprecate(const char *name, const char *c_name) \x7b",
   Line.mk 0 "    if (rizin_warn_deprecate) \x7b",
   Line.mk 0 "        printf(\"Warning: `%s` calls deprecated function `%s`\\n\", name, c_name);",
   Line.mk 0 "        if (rizin_warn_deprecate_instructions) \x7b",
   Line.mk 0 "            puts(\"To disable this warning, set rizin_warn_deprecate to false\");",
   Line.mk 0 "            puts(\"The way to do this depends on the SWIG language being used\");",
   Line.mk 0 "            puts(\"For python, do `rizin.cvar.rizin_warn_deprecate = False`\");",
   Line.mk 0 "        \x7d",
   Line.mk 0 "    \x7d",
   Line.mk 0 "\x7d",
   Line.mk 0 "%\x7d"]

/-- `Module.write`: the module declaration, the raw `#include` block (the
header set in the run's iteration order), the typemap prelude, then the
enums, the generics, the deprecation helpers, the classes and the directors
in registration order, and the trailer. -/
def Module.write (m : Module) : List Line :=
  [Line.mk 0 "%module(directors=1) rizin", Line.mk 0 "%\x7b"] ++
    m.headers.map includeLine ++
    [Line.mk 0 "%\x7d", Line.mk 0 "%include <rizin_pre.i>"] ++
    m.enumTexts.flatten ++
    (m.generics.map ModuleGeneric.text).flatten ++
    deprecationLines ++
    (m.classes.map ModuleClass.write).flatten ++
    m.directorTexts.flatten ++
    [Line.mk 0 "%include <rizin_post.i>"]

/-- A pointer chain of the given depth ending in `void` (no const
qualifiers). -/
def voidChain : Nat → CType
  | 0 => .void false
  | n + 1 => .pointer false (voidChain n)

/-- Whether a type is `void` behind any number of pointer levels. -/
def endsInVoid : CType → Bool
  | .void _ => true
  | .pointer _ p => endsInVoid p
  | _ => false

/-- A string of `n` pointer markers. -/
def stars : Nat → String
  | 0 => ""
  | n + 1 => stars n ++ "*"

/-- Processing a sequence of further concrete uses of one generic, as
`stringify_decl` would trigger them (used to state the "exactly once no
matter how many uses" part of the specialization-set claim). -/
def addSpecs (m : Module) (g : String) : List CCursor → Except String Module
  | [] => .ok m
  | c :: cs =>
    match m.addGenericSpecialization c g with
    | .error e => .error e
    | .ok (_, m1) => addSpecs m1 g cs

/-- Well-formedness of the generic registry mappings: keys are actual struct
names (clang reports an empty spelling only for declarations that cannot be
registered as generics). -/
def wfMappings (m : Module) : Prop :=
  ∀ p ∈ m.genericMappings, p.1 ≠ ""

/-- Replace a generic's specialization set. -/
def withSpecs (g : ModuleGeneric) (l : List String) : ModuleGeneric :=
  { g with specializations := l }

/-- Replace a module's header-set enumeration (two runs over the same
registered header set may observe different enumerations of the Python
`set`). -/
def withHeaders (m : Module) (l : List String) : Module :=
  { m with headers := l }

deriving instance DecidableEq for Except

/-- Boolean list membership agrees with propositional membership. -/
theorem contains_iff {l : List String} {s : String} :
    l.contains s = true ↔ s ∈ l := List.elem_iff

/-- Membership in the result of a set insertion. -/
theorem mem_insertSet {l : List String} {s x : String} :
    x ∈ insertSet l s ↔ x ∈ l ∨ x = s := by
  unfold insertSet
  split
  · rename_i h
    have hs : s ∈ l := contains_iff.mp h
    constructor
    · exact Or.inl
    · rintro (hx | rfl)
      · exact hx
      · exact hs
  · simp [List.mem_append]

/-- Boolean membership in the result of a set insertion. -/
theorem contains_insertSet (l : List String) (s x : String) :
    (insertSet l s).contains x = (l.contains x || x == s) := by
  rw [Bool.eq_iff_iff]
  simp only [Bool.or_eq_true, beq_iff_eq, contains_iff]
  exact mem_insertSet

/-- Set insertion preserves duplicate-freeness. -/
theorem nodup_insertSet {l : List String} (s : String) (h : l.Nodup) :
    (insertSet l s).Nodup := by
  unfold insertSet
  split
  · exact h
  · rename_i hc
    refine List.nodup_append.mpr ⟨h, List.nodup_singleton s, ?_⟩
    intro a ha hb
    rw [List.mem_singleton] at hb
    subst hb
    exact hc (contains_iff.mpr ha)

/-- After inserting into a duplicate-free set, the element is counted
exactly once. -/
theorem count_insertSet_self {l : List String} (s : String) (h : l.Nodup) :
    (insertSet l s).count s = 1 :=
  List.count_eq_one_of_mem (nodup_insertSet s h) (mem_insertSet.mpr (Or.inr rfl))

/-- Claim C4 (amended): for a use of a pointer-based Generic carrying a
well-delimited annotation token, resolution succeeds exactly when the inner
text (after stripping an optional `const ` prefix) has `*` as its final
character and a space as its second-to-last character, in which case those
two characters are stripped before the inner name is recorded; it fails
fatally otherwise.  A non-pointer Generic performs no pointer check at all:
any inner text — including one ending in `*` — is accepted and recorded
verbatim. -/
theorem c4_pointer_annotation_checks
    (m : Module) (c : CCursor) (g : ModuleGeneric) (tok : String)
    (htok : c.tokenAfterType = some tok)
    (hdelim : (strStartsWith tok "/*<" && strEndsWith tok ">*/") = true)
    (hfind : m.findGeneric g.name = some g) :
    (g.pointer = true →
      ((strLast (annInner tok) = some '*' ∧ strSecondLast (annInner tok) = some ' ') →
        m.addGenericSpecialization c g.name =
          .ok (strDropRight (annInner tok) 2,
            m.updateGeneric (withSpecs g (insertSet g.specializations (strDropRight (annInner tok) 2))))) ∧
      (¬ (strLast (annInner tok) = some '*' ∧ strSecondLast (annInner tok) = some ' ') →
        ∃ e, m.addGenericSpecialization c g.name = .error e)) ∧
    (g.pointer = false →
      m.addGenericSpecialization c g.name =
        .ok (annInner tok,
          m.updateGeneric (withSpecs g (insertSet g.specializations (annInner tok))))) := by
  constructor
  · intro hp
    constructor
    · rintro ⟨h1, h2⟩
      simp [Module.addGenericSpecialization, htok, hdelim, hfind, hp, h1, h2, withSpecs]
    · intro hne
      rcases hl : strLast (annInner tok) with _ | c1
      · exact ⟨"IndexError: string index out of range",
          by simp [Module.addGenericSpecialization, htok, hdelim, hfind, hp, hl]⟩
      · by_cases hc1 : c1 = '*'
        · subst hc1
          rcases hsl : strSecondLast (annInner tok) with _ | c2
          · exact ⟨"IndexError: string index out of range",
              by simp [Module.addGenericSpecialization, htok, hdelim, hfind, hp, hl, hsl]⟩
          · have hc2 : c2 ≠ ' ' := by
              intro h
              subst h
              exact hne ⟨hl, hsl⟩
            exact ⟨"Specialization at " ++ c.location ++
                "lacks space between type and pointer",
              by simp [Module.addGenericSpecialization, htok, hdelim, hfind, hp, hl, hsl, hc2]⟩
        · exact ⟨"Specializations of generic " ++ g.name ++
              " should have a pointer, but specialization at " ++
              c.location ++ " does not",
            by simp [Module.addGenericSpecialization, htok, hdelim, hfind, hp, hl, hc1]⟩
  · intro hp
    simp [Module.addGenericSpecialization, htok, hdelim, hfind, hp, withSpecs]

/-- A module with one registered non-pointer generic `RzVector` mapped from
struct `rz_vector_t`, used for concrete runs. -/
def c4m : Module :=
  ⟨[], [], [], [⟨"RzVector", false, [], []⟩], [("rz_vector_t", "RzVector")], []⟩

/-- A concrete field cursor of type `rz_vector_t` annotated `/*<Foo*>*/`
(inner text ending in `*` with no space). -/
def c4c : CCursor :=
  ⟨"v", "rz_vector.h:42", [], .recordTy false "rz_vector_t" "rz_vector_t",
    some "/*<Foo*>*/"⟩

/-- Claim C4 counterexample: on a use of the non-pointer generic `RzVector`
whose annotation inner text `Foo*` ends in `*`, `add_generic_specialization`
does not reject — it succeeds and records `Foo*` verbatim, contradicting
the claim that a non-pointer Generic rejects an annotation whose inner text
ends in `*`. -/
theorem c4_counterexample :
    strEndsWith (annInner "/*<Foo*>*/") "*" = true ∧
    c4m.addGenericSpecialization c4c "RzVector" =
      .ok ("Foo*", ⟨[], [], [], [⟨"RzVector", false, ["Foo*"], []⟩],
        [("rz_vector_t", "RzVector")], []⟩) := by
  constructor
  · decide
  · decide

/-- A module with one registered pointer-based generic `RzList` mapped from
struct `rz_list_t`, used for concrete runs. -/
def c4mp : Module :=
  ⟨[], [], [], [⟨"RzList", true, [], []⟩], [("rz_list_t", "RzList")], []⟩

/-- The registered pointer-based generic of `c4mp`. -/
def c4gp : ModuleGeneric := ⟨"RzList", true, [], []⟩

/-- A concrete parameter cursor of type `RzList *` annotated
`/*<const RzBinSymbol *>*/`. -/
def c4cp : CCursor :=
  ⟨"lst", "rz_list.h:7", [], .pointer false (.typedefTy false "RzList" "rz_list_t"),
    some "/*<const RzBinSymbol *>*/"⟩

/-- Witness for the C4 theorem at a concrete pointer-based use whose
annotation is well-formed. -/
theorem c4_witness :
    c4mp.addGenericSpecialization c4cp c4gp.name =
      .ok (strDropRight (annInner "/*<const RzBinSymbol *>*/") 2,
        c4mp.updateGeneric (withSpecs c4gp
          (insertSet c4gp.specializations
            (strDropRight (annInner "/*<const RzBinSymbol *>*/") 2)))) :=
  ((c4_pointer_annotation_checks c4mp c4cp c4gp "/*<const RzBinSymbol *>*/"
    rfl (by decide) (by decide)).1 rfl).1 ⟨by decide, by decide⟩

/-- In a generic `%define` context (erased use), `stringify_decl` settles
the type name without scanning any annotation and leaves the module
untouched. -/
theorem stringifyDecl_erased {m : Module} {ty : CType} {g : String}
    (c : CCursor) (nm : Option String)
    (hg : m.getGenericName ty = some g) (hv : g ≠ "void") :
    m.stringifyDecl c ty nm true = .ok (declTail (some (g ++ "_##TYPE")) c ty nm, m) := by
  simp [Module.stringifyDecl, hg, hv]

/-- In a concrete (non-template) context, `stringify_decl` resolves a
generic type through `add_generic_specialization` and emits
`{generic}_{inner}`. -/
theorem stringifyDecl_concrete {m m' : Module} {ty : CType} {g T : String}
    {c : CCursor} (nm : Option String)
    (hg : m.getGenericName ty = some g) (hv : g ≠ "void")
    (hadd : m.addGenericSpecialization c g = .ok (T, m')) :
    m.stringifyDecl c ty nm false = .ok (declTail (some (g ++ "_" ++ T)) c ty nm, m') := by
  simp [Module.stringifyDecl, hg, hv, hadd]

/-- In a concrete (non-template) context, a failing annotation scan aborts
`stringify_decl` with the same error. -/
theorem stringifyDecl_concrete_error {m : Module} {ty : CType} {g e : String}
    {c : CCursor} (nm : Option String)
    (hg : m.getGenericName ty = some g) (hv : g ≠ "void")
    (hadd : m.addGenericSpecialization c g = .error e) :
    m.stringifyDecl c ty nm false = .error e := by
  simp [Module.stringifyDecl, hg, hv, hadd]

/-- Claim C5 (amended): for a field, parameter, or return value whose type
is a registered Generic (other than `void`) and that is resolved to a
CONCRETE specialization, the source token between the type reference and
the declared name must be present and `/*<`‑`>*/`‑delimited: an absent
token aborts the run, and a malformed one aborts it with a fatal error
naming that declaration's location.  A use marked generic-erased, however,
is never scanned: it succeeds with the erased placeholder regardless of the
token — in particular a generic-erased pointer-generic parameter with no
trailing annotation is NOT rejected. -/
theorem c5_annotation_scan
    (m : Module) (c : CCursor) (ty : CType) (g : String)
    (hg : m.getGenericName ty = some g) (hv : g ≠ "void") :
    (∀ nm, m.stringifyDecl c ty nm true =
      .ok (declTail (some (g ++ "_##TYPE")) c ty nm, m)) ∧
    (∀ nm, m.stringifyDecl c ty nm true =
      m.stringifyDecl { c with tokenAfterType := none } ty nm true) ∧
    (c.tokenAfterType = none →
      ∀ nm, m.stringifyDecl c ty nm false =
        .error "StopIteration: no token between type reference and declaration") ∧
    (∀ tok, c.tokenAfterType = some tok →
      (strStartsWith tok "/*<" && strEndsWith tok ">*/") = false →
      ∀ nm, m.stringifyDecl c ty nm false =
        .error (g ++ " at " ++ c.location ++ " lacks /*<type>*/ annotation")) := by
  refine ⟨?_, ?_, ?_, ?_⟩
  · intro nm
    exact stringifyDecl_erased c nm hg hv
  · intro nm
    rw [stringifyDecl_erased c nm hg hv,
      stringifyDecl_erased { c with tokenAfterType := none } nm hg hv]
    simp [declTail]
  · intro htok nm
    exact stringifyDecl_concrete_error nm hg hv
      (by simp [Module.addGenericSpecialization, htok])
  · intro tok htok hbad nm
    exact stringifyDecl_concrete_error nm hg hv
      (by simp [Module.addGenericSpecialization, htok, hbad])

/-- A module registering the pointer-based generic `RzList`, for the C5
concrete runs. -/
def c5m : Module :=
  ⟨[], [], [], [⟨"RzList", true, [], []⟩], [("rz_list_t", "RzList")], []⟩

/-- A parameter of type `RzList *` (a registered pointer-based generic) with
NO trailing annotation comment. -/
def c5c : CCursor :=
  ⟨"list", "rz_core.h:101", [],
    .pointer false (.typedefTy false "RzList" "rz_list_t"), none⟩

/-- Claim C5 counterexample: a function parameter marked generic-erased
whose type is a registered pointer-based Generic and that carries no
trailing annotation comment is NOT rejected with a missing-annotation
error — `stringify_decl` succeeds, emitting the erased placeholder, and the
module state is unchanged. -/
theorem c5_counterexample :
    c5c.tokenAfterType = none ∧
    c5m.getGenericName c5c.ty = some "RzList" ∧
    c5m.stringifyDecl c5c c5c.ty (some "list") true =
      .ok ("RzList_##TYPE *list", c5m) := by
  refine ⟨rfl, by decide, by decide⟩

/-- A concrete use of `RzList *` whose next source token is the plain `*`
of the declarator — the token seen when the annotation comment is absent. -/
def c5bad : CCursor :=
  ⟨"x", "rz_core.h:55", [],
    .pointer false (.typedefTy false "RzList" "rz_list_t"), some "*"⟩

/-- Witness for the C5 theorem at a concrete malformed-token input. -/
theorem c5_witness :
    c5m.stringifyDecl c5bad c5bad.ty (some "x") false =
      .error ("RzList" ++ " at " ++ c5bad.location ++ " lacks /*<type>*/ annotation") :=
  (c5_annotation_scan c5m c5bad c5bad.ty "RzList" (by decide) (by decide)).2.2.2
    "*" rfl (by decide) (some "x")

/-- A void chain is never const-qualified (all its levels are built
unqualified). -/
theorem voidChain_isConst (n : Nat) : (voidChain n).isConst = false := by
  cases n <;> simp [voidChain, CType.isConst]

/-- Unravelling a void chain yields the bare `void` and one `*` per level. -/
theorem unravel_voidChain (b : Bool) :
    ∀ (n : Nat) (ptrs : String),
      unravel b (voidChain n) ptrs = (.void false, stars n ++ ptrs) := by
  intro n
  induction n with
  | zero => intro ptrs; simp [voidChain, unravel, stars, String.empty_append]
  | succ k ih =>
    intro ptrs
    rw [voidChain, unravel, voidChain_isConst]
    simp only [Bool.and_false, Bool.false_eq_true, if_false]
    rw [ih ("*" ++ ptrs), stars, String.append_assoc]

/-- Claim C10: a type that is `void` or a pointer chain ending in `void`
resolves to the generic name `"void"`; in a generic-template context such a
type is stringified with the erased placeholder `TYPE` (and `T` as the
documentation-facing name), while in a non-template context the type name
stays unset, the declaration falls back to the plain C spelling `void`, and
no annotation scan is attempted (the module state is returned untouched in
every case). -/
theorem c10_void_generic :
    (∀ (m : Module) (ty : CType), endsInVoid ty = true →
      m.getGenericName ty = some "void") ∧
    (∀ (m : Module) (c : CCursor) (nm : String) (n : Nat),
      m.stringifyDecl c (voidChain n) (some nm) true =
        .ok ("TYPE" ++ " " ++ (stars n ++ nm), m)) ∧
    (∀ (m : Module) (c : CCursor) (n : Nat),
      m.stringifyTypePy c (voidChain n) true = .ok (some "T", m)) ∧
    (∀ (m : Module) (c : CCursor) (nm : String) (n : Nat),
      m.stringifyDecl c (voidChain n) (some nm) false =
        .ok ("void" ++ " " ++ (stars n ++ nm), m)) := by
  have hvoid : ∀ (m : Module) (ty : CType), endsInVoid ty = true →
      m.getGenericName ty = some "void" := by
    intro m ty h
    induction ty <;> simp_all [endsInVoid, Module.getGenericName]
  refine ⟨hvoid, ?_, ?_, ?_⟩
  · intro m c nm n
    have h := hvoid m (voidChain n) (by induction n <;> simp_all [voidChain, endsInVoid])
    simp [Module.stringifyDecl, h, declTail, unravel_voidChain, reshape,
      CType.isBool, String.append_empty, voidChain_isConst]
  · intro m c n
    have h := hvoid m (voidChain n) (by induction n <;> simp_all [voidChain, endsInVoid])
    simp [Module.stringifyTypePy, h]
  · intro m c nm n
    have h := hvoid m (voidChain n) (by induction n <;> simp_all [voidChain, endsInVoid])
    simp [Module.stringifyDecl, h, declTail, unravel_voidChain, reshape,
      CType.isBool, CType.spelling, String.append_empty, voidChain_isConst]

/-- The empty module. -/
def c10m : Module := ⟨[], [], [], [], [], []⟩

/-- Witness for the C10 theorem at a concrete `void **` input. -/
theorem c10_witness :
    c10m.getGenericName (.pointer false (.pointer false (.void false))) = some "void" :=
  c10_void_generic.1 c10m (.pointer false (.pointer false (.void false))) (by decide)

/-- A module whose registered header set is `{rz_list.h, rz_core.h}`,
enumerated in one order. -/
def c2mA : Module := ⟨["rz_list.h", "rz_core.h"], [], [], [], [], []⟩

/-- The same module with the header set enumerated in the other order. -/
def c2mB : Module := ⟨["rz_core.h", "rz_list.h"], [], [], [], [], []⟩

/-- Claim C2 counterexample: two full runs over the same unchanged
declaration set — the two modules are identical and their header sets are
equal as sets (the enumerations are permutations of one another) — can
produce different interface text, because the raw `#include` block follows
the Python `set` iteration order. -/
theorem c2_counterexample :
    c2mA.headers.Perm c2mB.headers ∧
    c2mA = withHeaders c2mB c2mA.headers ∧
    Module.write c2mA ≠ Module.write c2mB := by
  refine ⟨by decide, rfl, by decide⟩

/-- Claim C2 (amended): the interface text is a deterministic function of
the module and of the run's enumeration of the header set: every section
other than the raw `#include` block is independent of that enumeration and
appears in registration order, two runs whose header enumerations are
permutations of each other produce outputs that are permutations of each
other, and runs whose enumerations coincide produce byte-identical text. -/
theorem c2_header_order_stability (m : Module) (l1 l2 : List String)
    (hp : l1.Perm l2) :
    (∀ l, Module.write (withHeaders m l) =
      [Line.mk 0 "%module(directors=1) rizin", Line.mk 0 "%\x7b"] ++
      l.map includeLine ++
      ([Line.mk 0 "%\x7d", Line.mk 0 "%include <rizin_pre.i>"] ++
        m.enumTexts.flatten ++ (m.generics.map ModuleGeneric.text).flatten ++
        deprecationLines ++ (m.classes.map ModuleClass.write).flatten ++
        m.directorTexts.flatten ++ [Line.mk 0 "%include <rizin_post.i>"])) ∧
    (Module.write (withHeaders m l1)).Perm (Module.write (withHeaders m l2)) ∧
    (l1 = l2 → Module.write (withHeaders m l1) = Module.write (withHeaders m l2)) := by
  have heq : ∀ l, Module.write (withHeaders m l) =
      ([Line.mk 0 "%module(directors=1) rizin", Line.mk 0 "%\x7b"] ++
        l.map includeLine) ++
      ([Line.mk 0 "%\x7d", Line.mk 0 "%include <rizin_pre.i>"] ++
        m.enumTexts.flatten ++ (m.generics.map ModuleGeneric.text).flatten ++
        deprecationLines ++ (m.classes.map ModuleClass.write).flatten ++
        m.directorTexts.flatten ++ [Line.mk 0 "%include <rizin_post.i>"]) := by
    intro l
    simp [Module.write, withHeaders, List.append_assoc]
  refine ⟨?_, ?_, ?_⟩
  · intro l
    simp [heq l, List.append_assoc]
  · rw [heq l1, heq l2]
    exact ((List.Perm.append_left _ (hp.map includeLine)).append_right _)
  · rintro rfl
    rfl

/-- Witness for the C2 theorem at concrete header enumerations. -/
theorem c2_witness :
    (Module.write (withHeaders c10m ["rz_list.h", "rz_core.h"])).Perm
      (Module.write (withHeaders c10m ["rz_core.h", "rz_list.h"])) :=
  (c2_header_order_stability c10m ["rz_list.h", "rz_core.h"]
    ["rz_core.h", "rz_list.h"] (by decide)).2.1

/-- A registered class whose struct mirror carries a recognizable line. -/
def c3cls : ModuleClass := ⟨"Box", "box_t", [Line.mk 0 "struct-C"], []⟩

/-- A module with one enum, one generic, one class and one director, each
carrying a recognizable line of text. -/
def c3m : Module :=
  ⟨[], [c3cls], [[Line.mk 0 "enum-E"]], [⟨"RzList", true, [], [Line.mk 0 "generic-G"]⟩],
    [], [[Line.mk 0 "dir-D"]]⟩

/-- Claim C3 counterexample: in the final emission pass a Generic's own
text is emitted BEFORE the class blocks and before the director blocks —
not after all other structural entities have been fully emitted, as the
claim states. -/
theorem c3_counterexample :
    (Line.mk 0 "generic-G") ∈ Module.write c3m ∧
    (Line.mk 0 "struct-C") ∈ Module.write c3m ∧
    (Line.mk 0 "dir-D") ∈ Module.write c3m ∧
    (Module.write c3m).indexOf (Line.mk 0 "generic-G") <
      (Module.write c3m).indexOf (Line.mk 0 "struct-C") ∧
    (Module.write c3m).indexOf (Line.mk 0 "generic-G") <
      (Module.write c3m).indexOf (Line.mk 0 "dir-D") := by
  refine ⟨by decide, by decide, by decide, by decide, by decide⟩

/-- Claim C3 (amended): the final emission pass writes the fixed section
order module declaration → includes → prelude → enums (registration order)
→ generics (registration order) → deprecation helpers → classes
(registration order) → directors (registration order) → trailer, so a
Generic's text follows the enums but PRECEDES the classes and directors
(its specialization set is nevertheless complete at that point because
specializations are discovered while entities are constructed, before
`Module.write` runs, which itself never modifies the module); and within a
Class the buffered field block is emitted before the bound functions. -/
theorem c3_emission_order :
    (∀ m : Module, Module.write m =
      [Line.mk 0 "%module(directors=1) rizin", Line.mk 0 "%\x7b"] ++
      m.headers.map includeLine ++
      [Line.mk 0 "%\x7d", Line.mk 0 "%include <rizin_pre.i>"] ++
      m.enumTexts.flatten ++
      (m.generics.map ModuleGeneric.text).flatten ++
      deprecationLines ++
      (m.classes.map ModuleClass.write).flatten ++
      m.directorTexts.flatten ++
      [Line.mk 0 "%include <rizin_post.i>"]) ∧
    (∀ c : ModuleClass, ModuleClass.write c =
      c.structWriter ++ [Line.mk 0 ("%extend " ++ c.structName ++ " \x7b")] ++
      shiftLines 1 (c.funcs.map ModuleFunc.write).flatten ++ [Line.mk 0 "\x7d"]) ∧
    ((Module.write c3m).indexOf (Line.mk 0 "enum-E") <
      (Module.write c3m).indexOf (Line.mk 0 "generic-G") ∧
     (Module.write c3m).indexOf (Line.mk 0 "generic-G") <
      (Module.write c3m).indexOf (Line.mk 0 "struct-C")) := by
  refine ⟨fun m => rfl, fun c => rfl, by decide⟩

/-- A successful association-list lookup exhibits a member. -/
theorem lookup_mem {l : List (String × String)} {k v : String}
    (h : List.lookup k l = some v) : (k, v) ∈ l := by
  induction l with
  | nil => simp [List.lookup] at h
  | cons p ps ih =>
    rcases p with ⟨pk, pv⟩
    rw [List.lookup] at h
    by_cases hb : k == pk
    · rw [hb] at h
      simp only [Option.some.injEq] at h
      subst h
      rw [beq_iff_eq.mp hb]
      exact List.mem_cons_self _ _
    · rw [Bool.not_eq_true] at hb
      rw [hb] at h
      exact List.mem_cons_of_mem _ (ih h)

/-- Whether a type kind is a named declaration kind (typedef or record). -/
def CType.isNamed : CType → Bool
  | .typedefTy _ _ _ => true
  | .recordTy _ _ _ => true
  | _ => false

/-- Reordering is the identity on named types (they are neither arrays nor
function prototypes). -/
theorem reshape_of_named {t : CType} (h : t.isNamed = true) (nm : String) :
    reshape t nm = (t, nm) := by
  cases t <;> simp_all [CType.isNamed, reshape]

/-- A named type is not of kind `BOOL`. -/
theorem isBool_of_named {t : CType} (h : t.isNamed = true) : t.isBool = false := by
  cases t <;> simp_all [CType.isNamed, CType.isBool]

/-- With well-formed registry mappings, a type resolving to a generic name
other than `"void"` unravels to a named (typedef/record) type. -/
theorem unravel_named {m : Module} {G : String}
    (hwf : wfMappings m) (hG : G ≠ "void") :
    ∀ (ty : CType), m.getGenericName ty = some G →
      ∀ (b : Bool) (ptrs : String), ((unravel b ty ptrs).1).isNamed = true := by
  intro ty
  induction ty with
  | pointer c p ih => intro hg b ptrs; exact ih hg b _
  | void c => intro hg; exact absurd (Option.some.inj hg).symm hG
  | typedefTy c s cd => intro _ b ptrs; simp [unravel, CType.isNamed]
  | recordTy c s cd => intro _ b ptrs; simp [unravel, CType.isNamed]
  | boolTy c => intro hg; exact absurd rfl (hwf _ (lookup_mem hg))
  | intTy c s => intro hg; exact absurd rfl (hwf _ (lookup_mem hg))
  | charTy c s => intro hg; exact absurd rfl (hwf _ (lookup_mem hg))
  | constantArray e n ih => intro hg; exact absurd rfl (hwf _ (lookup_mem hg))
  | incompleteArray e ih => intro hg; exact absurd rfl (hwf _ (lookup_mem hg))
  | funProto r a => intro hg; exact absurd rfl (hwf _ (lookup_mem hg))
  | otherTy s => intro hg; exact absurd rfl (hwf _ (lookup_mem hg))

/-- On a type that unravels to a named type, `declTail` places the settled
type name first, followed by a space and the decorated declarator. -/
theorem declTail_named {ty : CType} (tn : String) (c : CCursor) (nm : Option String)
    (h : ∀ (b : Bool) (ptrs : String), ((unravel b ty ptrs).1).isNamed = true) :
    ∃ rest, declTail (some tn) c ty nm = tn ++ " " ++ rest := by
  simp only [declTail]
  rcases hu : unravel (some tn).isSome ty
      (if (some tn).isSome && ty.isConst then "const " else "") with ⟨ty2, ptrs⟩
  have hn : ty2.isNamed = true := by
    have hh := h (some tn).isSome (if (some tn).isSome && ty.isConst then "const " else "")
    rw [hu] at hh
    exact hh
  refine ⟨(reshape ty2 (ptrs ++ nm.getD c.spelling)).2, ?_⟩
  simp [reshape_of_named hn, isBool_of_named hn]

/-- Inversion of a successful `add_generic_specialization`: the generic was
found in the registry, and the returned module records the returned inner
name in that generic's specialization set. -/
theorem addGenericSpecialization_ok_inv {m m' : Module} {c : CCursor}
    {gname T : String}
    (h : m.addGenericSpecialization c gname = .ok (T, m')) :
    ∃ g, m.findGeneric gname = some g ∧
      m' = m.updateGeneric (withSpecs g (insertSet g.specializations T)) := by
  unfold Module.addGenericSpecialization at h
  split at h
  · exact absurd h (by simp)
  · split at h
    · exact absurd h (by simp)
    · split at h
      · exact absurd h (by simp)
      · rename_i generic hfind
        split at h
        · split at h
          · exact absurd h (by simp)
          · split at h
            · exact absurd h (by simp)
            · split at h
              · exact absurd h (by simp)
              · split at h
                · exact absurd h (by simp)
                · simp only [Except.ok.injEq, Prod.mk.injEq] at h
                  exact ⟨generic, hfind, by rw [← h.1, ← h.2]; rfl⟩
        · simp only [Except.ok.injEq, Prod.mk.injEq] at h
          exact ⟨generic, hfind, by rw [← h.1, ← h.2]; rfl⟩

/-- Replacing (all copies of) the first-found entry of a generic list keeps
it first-found. -/
theorem find_update_list (l : List ModuleGeneric) (g g' : ModuleGeneric)
    (hname : g'.name = g.name)
    (hfind : l.find? (fun x => x.name == g.name) = some g) :
    (l.map (fun x => if x.name == g'.name then g' else x)).find?
      (fun x => x.name == g.name) = some g' := by
  induction l with
  | nil => simp at hfind
  | cons x xs ih =>
    by_cases hb : x.name = g.name
    · have hb1 : (x.name == g'.name) = true := by rw [hname]; exact beq_iff_eq.mpr hb
      have hb2 : (g'.name == g.name) = true := beq_iff_eq.mpr hname
      simp only [List.map_cons, hb1, if_true, List.find?_cons, hb2]
    · have hb1 : (x.name == g'.name) = false := by
        rw [hname]; exact beq_eq_false_iff_ne.mpr hb
      have hb2 : (x.name == g.name) = false := beq_eq_false_iff_ne.mpr hb
      rw [List.find?_cons_of_neg _ (by simp [hb2])] at hfind
      simp only [List.map_cons, hb1, if_false]
      rw [List.find?_cons_of_neg _ (by simp [hb2])]
      exact ih hfind

/-- `findGeneric` after `updateGeneric` of the found entry. -/
theorem findGeneric_updateGeneric {m : Module} {G : String}
    (g g' : ModuleGeneric) (hname : g'.name = g.name)
    (hfind : m.findGeneric G = some g) :
    (m.updateGeneric g').findGeneric G = some g' := by
  have hG : g.name = G := by
    have := List.find?_some hfind
    exact beq_iff_eq.mp this
  unfold Module.findGeneric Module.updateGeneric at *
  subst hG
  exact find_update_list m.generics g g' hname hfind

/-- Processing any further sequence of concrete uses of a generic preserves
duplicate-freeness of and membership in its specialization set. -/
theorem addSpecs_invariant (G T : String) :
    ∀ (uses : List CCursor) (m1 m2 : Module) (g1 : ModuleGeneric),
      m1.findGeneric G = some g1 → g1.specializations.Nodup →
      T ∈ g1.specializations → addSpecs m1 G uses = .ok m2 →
      ∃ g2, m2.findGeneric G = some g2 ∧ g2.specializations.Nodup ∧
        T ∈ g2.specializations := by
  intro uses
  induction uses with
  | nil =>
    intro m1 m2 g1 hfind hnd hmem h
    simp only [addSpecs, Except.ok.injEq] at h
    subst h
    exact ⟨g1, hfind, hnd, hmem⟩
  | cons c cs ih =>
    intro m1 m2 g1 hfind hnd hmem h
    rcases hadd : m1.addGenericSpecialization c G with e | ⟨T2, mnext⟩
    · rw [addSpecs, hadd] at h
      exact absurd h (by simp)
    · rw [addSpecs, hadd] at h
      rcases addGenericSpecialization_ok_inv hadd with ⟨gf, hgf, hm⟩
      have hge : gf = g1 := by
        rw [hgf] at hfind
        exact Option.some.inj hfind
      subst hge
      subst hm
      exact ih _ m2 (withSpecs gf (insertSet gf.specializations T2))
        (findGeneric_updateGeneric gf (withSpecs gf (insertSet gf.specializations T2)) rfl hgf)
        (nodup_insertSet _ hnd) (mem_insertSet.mpr (Or.inl hmem)) h

/-- Claim C1: for every registered Generic `G` and every concrete
(non-template) use whose annotation yields inner type `T` (after the
`const `/`" *"` stripping performed by the scanner), the emitted concrete
type name is exactly the string `G ++ "_" ++ T`, and `T` is a member of
`G`'s specialization set exactly once, no matter how many further uses name
the same `T`. -/
theorem c1_generic_specialization_name
    (m m' : Module) (c : CCursor) (G T : String) (g : ModuleGeneric)
    (hwf : wfMappings m)
    (hfind : m.findGeneric G = some g)
    (hnd : g.specializations.Nodup)
    (hadd : m.addGenericSpecialization c G = .ok (T, m')) :
    (∀ (ty : CType) (nm : Option String),
      m.getGenericName ty = some G → G ≠ "void" →
      m.stringifyDecl c ty nm false =
        .ok (declTail (some (G ++ "_" ++ T)) c ty nm, m') ∧
      ∃ rest, declTail (some (G ++ "_" ++ T)) c ty nm =
        (G ++ "_" ++ T) ++ " " ++ rest) ∧
    (∃ g', m'.findGeneric G = some g' ∧ g'.specializations.Nodup ∧
      g'.specializations.count T = 1) ∧
    (∀ (uses : List CCursor) (m2 : Module), addSpecs m' G uses = .ok m2 →
      ∃ g2, m2.findGeneric G = some g2 ∧ g2.specializations.count T = 1) := by
  rcases addGenericSpecialization_ok_inv hadd with ⟨gf, hgf, hm⟩
  have hge : gf = g := by
    rw [hfind] at hgf
    exact (Option.some.inj hgf).symm
  subst hge
  have hfind' : m'.findGeneric G = some (withSpecs gf (insertSet gf.specializations T)) := by
    rw [hm]
    exact findGeneric_updateGeneric gf _ rfl hfind
  refine ⟨?_, ?_, ?_⟩
  · intro ty nm hg hG
    exact ⟨stringifyDecl_concrete nm hg hG hadd,
      declTail_named (G ++ "_" ++ T) c nm (unravel_named hwf hG ty hg)⟩
  · exact ⟨_, hfind', nodup_insertSet _ hnd, count_insertSet_self _ hnd⟩
  · intro uses m2 h2
    rcases addSpecs_invariant G T uses m' m2 (withSpecs gf (insertSet gf.specializations T))
      hfind' (nodup_insertSet _ hnd) (mem_insertSet.mpr (Or.inr rfl)) h2 with
      ⟨g2, h2f, h2nd, h2mem⟩
    exact ⟨g2, h2f, List.count_eq_one_of_mem h2nd h2mem⟩

/-- Witness for the C1 theorem: a concrete `RzList *` use annotated
`/*<const RzBinSymbol *>*/` emits `RzList_RzBinSymbol` and records the
specialization. -/
theorem c1_witness :
    c4mp.stringifyDecl c4cp c4cp.ty (some "lst") false =
      .ok (declTail (some ("RzList" ++ "_" ++ "RzBinSymbol")) c4cp c4cp.ty (some "lst"),
        c4mp.updateGeneric (withSpecs c4gp (insertSet c4gp.specializations "RzBinSymbol"))) ∧
    (∃ rest, declTail (some ("RzList" ++ "_" ++ "RzBinSymbol")) c4cp c4cp.ty (some "lst") =
      ("RzList" ++ "_" ++ "RzBinSymbol") ++ " " ++ rest) :=
  (c1_generic_specialization_name c4mp
    (c4mp.updateGeneric (withSpecs c4gp (insertSet c4gp.specializations "RzBinSymbol")))
    c4cp "RzList" "RzBinSymbol" c4gp (by simp [wfMappings, c4mp]) (by decide) (by decide)
    (by decide)).1
    c4cp.ty (some "lst") (by decide) (by decide)

/-- The names of the surviving parameters as they appear in the inner
call-through list (`self` renamed to `_self`, everything else by its own
spelling). -/
def innerNames (ps : List CCursor) : List String :=
  ps.map (fun a => if a.spelling == "self" then "_self" else a.spelling)

/-- The inner identifier produced for one argument. -/
theorem processArg_inner {m m1 : Module} {ga : List String}
    {da : List (String × String)} {a : CCursor} {o i : String}
    (h : processArg m ga da a = .ok ((o, i), m1)) :
    i = if a.spelling == "self" then "_self" else a.spelling := by
  unfold processArg at h
  split at h
  · rename_i hs
    split at h
    · exact absurd h (by simp)
    · simp only [Except.ok.injEq, Prod.mk.injEq] at h
      simp [hs, ← h.1.2]
  · rename_i hs
    split at h
    · exact absurd h (by simp)
    · simp only [Except.ok.injEq, Prod.mk.injEq] at h
      simp [hs, ← h.1.2]

/-- On success, the inner call-through list is exactly the surviving
parameter names with `self` renamed to `_self`. -/
theorem processArgs_inner_eq :
    ∀ (args : List CCursor) (m : Module) (ga : List String)
      (da : List (String × String)) (outer inner : List String) (m' : Module),
      processArgs m ga da args = .ok ((outer, inner), m') →
      inner = innerNames args := by
  intro args
  induction args with
  | nil =>
    intro m ga da outer inner m' h
    simp only [processArgs, Except.ok.injEq, Prod.mk.injEq] at h
    rw [← h.1.2]
    rfl
  | cons a rest ih =>
    intro m ga da outer inner m' h
    rw [processArgs] at h
    split at h
    · exact absurd h (by simp)
    · rename_i o i m1 hpa1
      split at h
      · exact absurd h (by simp)
      · rename_i os is2 m2 hpa2
        simp only [Except.ok.injEq, Prod.mk.injEq] at h
        rw [← h.1.2, innerNames, List.map_cons]
        rw [processArg_inner hpa1, ih m1 ga da os is2 m2 hpa2]
        rfl

/-- Inversion of a successful instance-method head: the inner string gets
the `$self` receiver prepended. -/
theorem funcHead_this_inv {m m2 : Module} {func : FuncDecl} {nm : String}
    {gr : Bool} {os : String} {ai : List String} {hl ais : String}
    (h : funcHead m func .this nm gr os ai = .ok (hl, ais, m2)) :
    ais = joinComma ("$self" :: ai) := by
  simp only [funcHead] at h
  split at h
  · exact absurd h (by simp)
  · simp only [Except.ok.injEq, Prod.mk.injEq] at h
    exact h.2.1.symm

/-- Inversion of a successful `ModuleFunc.__init__`: the argument loop
succeeded, every directive named an inner-list member, the head and return
lines were built, and the result records the wrapper and contract text. -/
theorem moduleFuncInit_ok_inv {m m' : Module} {func : FuncDecl}
    {kind : FuncKind} {nm : String} {gr : Bool} {ga : List String}
    {da : List (String × String)} {tms : List Typemap} {r : ModuleFunc}
    (h : moduleFuncInit m func kind nm gr ga da tms = .ok (r, m')) :
    ∃ argsOuter argsInner m1,
      processArgs m ga da (survive kind func.params) =
        .ok ((argsOuter, argsInner), m1) ∧
      (∀ g ∈ ga, argsInner.contains g = true) ∧
      (∀ kv ∈ da, argsInner.contains kv.1 = true) ∧
      ∃ headLine argsInnerStr m2 retLine m3,
        funcHead m1 func kind nm gr (joinComma argsOuter) argsInner =
          .ok (headLine, argsInnerStr, m2) ∧
        funcRet m2 func gr argsInnerStr = .ok (retLine, m3) ∧
        r = ModuleFunc.mk
          ([Line.mk 0 headLine] ++ deprecateLines func nm ++
            [Line.mk 1 retLine, Line.mk 0 "\x7d"])
          (contractBlock nm (joinComma argsOuter)
            (nonnullArgs (survive kind func.params)))
          tms ∧
        m' = m3 := by
  unfold moduleFuncInit at h
  split at h
  · exact absurd h (by simp)
  · split at h
    · exact absurd h (by simp)
    · rename_i argsOuter argsInner m1 hpa
      split at h
      · exact absurd h (by simp)
      · rename_i hga
        split at h
        · exact absurd h (by simp)
        · rename_i hda
          split at h
          · exact absurd h (by simp)
          · rename_i headLine argsInnerStr m2 hhead
            split at h
            · exact absurd h (by simp)
            · rename_i retLine m3 hret
              simp only [Except.ok.injEq, Prod.mk.injEq] at h
              refine ⟨argsOuter, argsInner, m1, hpa, ?_, ?_, headLine,
                argsInnerStr, m2, retLine, m3, hhead, hret, h.1.symm, h.2.symm⟩
              · intro g hg
                by_contra hc
                exact hga (by
                  simp only [List.any_eq_true]
                  exact ⟨g, hg, by simpa using hc⟩)
              · intro kv hkv
                by_contra hc
                exact hda (by
                  simp only [List.any_eq_true]
                  exact ⟨kv, hkv, by simpa using hc⟩)

/-- The contract block is empty exactly when no argument is nonnull. -/
theorem contractBlock_eq_nil_iff (nm os : String) (l : List String) :
    contractBlock nm os l = [] ↔ l = [] := by
  unfold contractBlock
  split
  · rename_i hl
    simp_all [List.isEmpty_iff]
  · rename_i hl
    simp_all [List.isEmpty_iff]

/-- Claim C7: a precondition block is emitted for a bound function if and
only if at least one of its surviving (non-receiver) parameters carries the
`RZ_NONNULL` attribute, and the block lists exactly the names of those
parameters, in the order they appear in the underlying C declaration, each
as a `!= NULL` requirement. -/
theorem c7_nonnull_contract
    (m m' : Module) (f : FuncDecl) (kind : FuncKind) (nm : String)
    (gr : Bool) (ga : List String) (da : List (String × String))
    (tms : List Typemap) (r : ModuleFunc)
    (h : moduleFuncInit m f kind nm gr ga da tms = .ok (r, m')) :
    (r.contractLines = [] ↔ nonnullArgs (survive kind f.params) = []) ∧
    (nonnullArgs (survive kind f.params) ≠ [] →
      ∃ outerStr, r.contractLines =
        [Line.mk 0 ("%contract " ++ nm ++ "(" ++ outerStr ++ ") \x7b"),
         Line.mk 0 "require:"] ++
        (nonnullArgs (survive kind f.params)).map
          (fun s => Line.mk 1 (s ++ " != NULL;")) ++
        [Line.mk 0 "\x7d"]) := by
  rcases moduleFuncInit_ok_inv h with
    ⟨ao, ai, m1, hpa, _, _, hl, ais, m2, rl, m3, hh, hr, hrw, hm⟩
  subst hrw
  constructor
  · exact contractBlock_eq_nil_iff nm (joinComma ao) _
  · intro hne
    refine ⟨joinComma ao, ?_⟩
    show contractBlock nm (joinComma ao) (nonnullArgs (survive kind f.params)) = _
    unfold contractBlock
    rw [if_neg (by simpa [List.isEmpty_iff] using hne)]

/-- A concrete constructor-role function with one `RZ_NONNULL` parameter. -/
def c7f : FuncDecl :=
  ⟨"box_new", "box.h:3", [],
    [⟨"sz", "box.h:3", ["RZ_NONNULL"], .intTy false "int", none⟩,
     ⟨"flags", "box.h:3", [], .intTy false "int", none⟩],
    .pointer false (.recordTy false "box_t" "box_t"), none⟩

/-- The wrapper built for `c7f`. -/
def c7r : ModuleFunc :=
  ⟨[Line.mk 0 "Box(int sz, int flags) \x7b",
    Line.mk 1 "return box_new(sz, flags);",
    Line.mk 0 "\x7d"],
   [Line.mk 0 "%contract Box(int sz, int flags) \x7b",
    Line.mk 0 "require:",
    Line.mk 1 "sz != NULL;",
    Line.mk 0 "\x7d"],
   []⟩

/-- Filtering out entries keyed by a different string does not change a
lookup. -/
theorem lookup_filter_self {k : String} (hk : k ≠ "self") :
    ∀ (da : List (String × String)),
      List.lookup k (da.filter (fun kv => !(kv.1 == "self"))) = List.lookup k da := by
  intro da
  induction da with
  | nil => rfl
  | cons p ps ih =>
    rcases p with ⟨pk, pv⟩
    by_cases hp : pk = "self"
    · subst hp
      have hne : (k == "self") = false := beq_eq_false_iff_ne.mpr hk
      simp only [List.filter_cons, beq_self_eq_true, Bool.not_true, if_false,
        List.lookup, hne]
      exact ih
    · have hpb : (("self" : String) == "self") = true := beq_self_eq_true "self"
      have hne : (pk == "self") = false := beq_eq_false_iff_ne.mpr hp
      simp only [List.filter_cons, hne, Bool.not_false, if_true, List.lookup]
      by_cases hkp : k == pk
      · rw [hkp]
      · rw [Bool.not_eq_true] at hkp
        rw [hkp]
        exact ih

/-- The literal name `self` never survives into the inner call-through
list: a parameter spelled `self` appears as `_self`, and any other
parameter appears under its own (different) spelling. -/
theorem self_not_mem_innerNames (ps : List CCursor) : "self" ∉ innerNames ps := by
  intro hmem
  rw [innerNames, List.mem_map] at hmem
  rcases hmem with ⟨a, _, ha⟩
  by_cases hs : (a.spelling == "self") = true
  · rw [if_pos hs] at ha
    exact absurd ha (by decide)
  · rw [if_neg (by simpa using hs)] at ha
    exact hs (beq_iff_eq.mpr ha)

/-- Claim C9: in every bound function, a surviving parameter (after the
receiver is dropped for instance methods and destructors) whose C name is
exactly `self` appears as `_self` in both the visible signature (the outer
declaration is stringified under the name `_self`) and the inner
call-through list; a default-value directive keyed `self` is never applied
— its lookup is skipped in the `self` branch, and the sanity check aborts
construction because `self` never occurs in the inner list; every other
parameter keeps its original C name in both lists. -/
theorem c9_self_rename :
    (∀ (args : List CCursor) (m : Module) (ga : List String)
       (da : List (String × String)) (outer inner : List String) (m' : Module),
      processArgs m ga da args = .ok ((outer, inner), m') →
      inner = innerNames args) ∧
    (∀ (m : Module) (ga : List String) (da : List (String × String)) (a : CCursor),
      a.spelling = "self" →
      processArg m ga da a =
        match m.stringifyDecl a a.ty (some "_self") (ga.contains a.spelling) with
        | .error e => .error e
        | .ok (s, m') => .ok ((s, "_self"), m')) ∧
    (∀ (m : Module) (ga : List String) (da : List (String × String)) (a : CCursor),
      processArg m ga da a =
        processArg m ga (da.filter (fun kv => !(kv.1 == "self"))) a) ∧
    (∀ (m : Module) (ga : List String) (da : List (String × String)) (a : CCursor),
      a.spelling ≠ "self" →
      processArg m ga da a =
        match m.stringifyDecl a a.ty none (ga.contains a.spelling) with
        | .error e => .error e
        | .ok (s, m') =>
          .ok ((match List.lookup a.spelling da with
                | some d => s ++ " = " ++ d
                | none => s, a.spelling), m')) ∧
    (∀ (m : Module) (f : FuncDecl) (kind : FuncKind) (nm : String) (gr : Bool)
       (ga : List String) (da : List (String × String)) (tms : List Typemap)
       (v : String), ("self", v) ∈ da →
      ∀ (r : ModuleFunc) (m' : Module),
        moduleFuncInit m f kind nm gr ga da tms ≠ .ok (r, m')) ∧
    (∀ (m m' : Module) (f : FuncDecl) (nm : String) (ga : List String)
       (da : List (String × String)) (tms : List Typemap) (r : ModuleFunc),
      moduleFuncInit m f .this nm false ga da tms = .ok (r, m') →
      Line.mk 1 ("return " ++ f.spelling ++ "(" ++
        joinComma ("$self" :: innerNames (survive .this f.params)) ++ ");")
        ∈ r.writerLines) := by
  refine ⟨processArgs_inner_eq, ?_, ?_, ?_, ?_, ?_⟩
  · intro m ga da a hs
    simp [processArg, hs]
  · intro m ga da a
    by_cases hs : a.spelling = "self"
    · simp [processArg, hs]
    · simp only [processArg, if_neg (by simpa using hs)]
      rw [lookup_filter_self hs da]
  · intro m ga da a hs
    simp [processArg, hs]
  · intro m f kind nm gr ga da tms v hv r m' h
    rcases moduleFuncInit_ok_inv h with ⟨ao, ai, m1, hpa, _, hda, _⟩
    have hin : ai = innerNames (survive kind f.params) :=
      processArgs_inner_eq _ _ _ _ _ _ _ hpa
    have hc := hda ("self", v) hv
    rw [hin] at hc
    exact self_not_mem_innerNames _ (contains_iff.mp hc)
  · intro m m' f nm ga da tms r h
    rcases moduleFuncInit_ok_inv h with
      ⟨ao, ai, m1, hpa, _, _, hl, ais, m2, rl, m3, hh, hr, hrw, _⟩
    have hin : ai = innerNames (survive .this f.params) :=
      processArgs_inner_eq _ _ _ _ _ _ _ hpa
    have hais : ais = joinComma ("$self" :: ai) := funcHead_this_inv hh
    simp only [funcRet, if_neg (by simp : ¬ (false : Bool) = true),
      Except.ok.injEq, Prod.mk.injEq] at hr
    subst hrw
    have hret : rl = "return " ++ f.spelling ++ "(" ++
        joinComma ("$self" :: innerNames (survive .this f.params)) ++ ");" := by
      rw [← hr.1, hais, hin]
    rw [← hret]
    simp [List.mem_append]

/-- A discovery predicate ignores insertions of other spellings into the
consumed set (holds for both bulk-discovery predicates). -/
def PredInsert (p : List String → FuncDecl → Bool) : Prop :=
  ∀ (u : List String) (s : String) (g : FuncDecl),
    g.spelling ≠ s → p (insertSet u s) g = p u g

/-- A discovery predicate rejects an already-consumed function. -/
def PredConsumed (p : List String → FuncDecl → Bool) : Prop :=
  ∀ (u : List String) (f : FuncDecl),
    u.contains f.spelling = true → p u f = false

/-- A discovery predicate is antitone in the consumed set. -/
def PredAntitone (p : List String → FuncDecl → Bool) : Prop :=
  ∀ (u u' : List String) (f : FuncDecl),
    (∀ x, u.contains x = true → u'.contains x = true) →
    p u' f = true → p u f = true

/-- With distinct function spellings, the lazily-filtered discovery pass
binds exactly the functions satisfying the predicate against the INITIAL
consumed set, each renamed to its suffix after the prefix. -/
theorem discover_matches (p : List String → FuncDecl → Bool) (pre : String)
    (Hins : PredInsert p) :
    ∀ (fs : List FuncDecl) (used : List String),
      (fs.map FuncDecl.spelling).Nodup →
      (discover p pre used fs).2 =
        (fs.filter (p used)).map (fun f => (strDrop f.spelling pre.length, f)) := by
  intro fs
  induction fs with
  | nil => intro used _; rfl
  | cons f rest ih =>
    intro used hnd
    rw [List.map_cons, List.nodup_cons] at hnd
    have hcongr : rest.filter (p (insertSet used f.spelling)) = rest.filter (p used) :=
      List.filter_congr (fun g hg => Hins used f.spelling g
        (fun he => hnd.1 (List.mem_map.mpr ⟨g, hg, he⟩)))
    by_cases hp : p used f = true
    · rw [discover, if_pos hp, List.filter_cons_of_pos hp, List.map_cons]
      rw [ih (insertSet used f.spelling) hnd.2, hcongr]
    · rw [discover, if_neg (by simpa using hp),
        List.filter_cons_of_neg (by simpa using hp)]
      exact ih used hnd.2

/-- The consumed set after a discovery pass contains exactly the previously
consumed names and the spellings of the newly bound functions. -/
theorem discover_used_mem (p : List String → FuncDecl → Bool) (pre : String) :
    ∀ (fs : List FuncDecl) (used : List String) (x : String),
      (discover p pre used fs).1.contains x = true ↔
        used.contains x = true ∨
        x ∈ ((discover p pre used fs).2).map (fun rf => rf.2.spelling) := by
  intro fs
  induction fs with
  | nil => intro used x; simp [discover]
  | cons f rest ih =>
    intro used x
    by_cases hp : p used f = true
    · rw [discover, if_pos hp]
      simp only [List.map_cons, List.mem_cons]
      rw [ih (insertSet used f.spelling) x, contains_insertSet]
      simp only [Bool.or_eq_true, beq_iff_eq]
      tauto
    · rw [discover, if_neg (by simpa using hp)]
      exact ih used x

/-- A name marked consumed before a discovery pass is never bound by it. -/
theorem discover_not_bound (p : List String → FuncDecl → Bool) (pre : String)
    (Hcons : PredConsumed p) :
    ∀ (fs : List FuncDecl) (used : List String) (x : String),
      used.contains x = true →
      x ∉ ((discover p pre used fs).2).map (fun rf => rf.2.spelling) := by
  intro fs
  induction fs with
  | nil => intro used x _; simp [discover]
  | cons f rest ih =>
    intro used x hx
    by_cases hp : p used f = true
    · rw [discover, if_pos hp]
      simp only [List.map_cons, List.mem_cons, not_or]
      constructor
      · intro he
        subst he
        rw [Hcons used f hx] at hp
        exact absurd hp (by simp)
      · exact ih (insertSet used f.spelling) x
          (by rw [contains_insertSet, hx]; rfl)
    · rw [discover, if_neg (by simpa using hp)]
      exact ih used x hx

/-- A discovery pass over a list no member of which satisfies the predicate
binds nothing and leaves the consumed set unchanged. -/
theorem discover_none (p : List String → FuncDecl → Bool) (pre : String) :
    ∀ (fs : List FuncDecl) (v : List String),
      (∀ f ∈ fs, p v f = false) → discover p pre v fs = (v, []) := by
  intro fs
  induction fs with
  | nil => intro v _; rfl
  | cons f rest ih =>
    intro v hv
    rw [discover, if_neg (by rw [hv f (List.mem_cons_self f rest)]; simp)]
    exact ih v (fun g hg => hv g (List.mem_cons_of_mem f hg))

/-- After a discovery pass, no function of the same header still satisfies
the predicate against the enlarged consumed set. -/
theorem discover_exhausts (p : List String → FuncDecl → Bool) (pre : String)
    (Hcons : PredConsumed p) (Hanti : PredAntitone p) :
    ∀ (fs : List FuncDecl) (used : List String) (f : FuncDecl), f ∈ fs →
      p (discover p pre used fs).1 f = false := by
  intro fs
  induction fs with
  | nil => intro used f hf; exact absurd hf (List.not_mem_nil f)
  | cons g rest ih =>
    intro used f hf
    have hmono : ∀ (u : List String) (x : String), u.contains x = true →
        (discover p pre u rest).1.contains x = true :=
      fun u x hx => (discover_used_mem p pre rest u x).mpr (Or.inl hx)
    rcases List.mem_cons.mp hf with he | hm
    · subst he
      by_cases hp : p used f = true
      · rw [discover, if_pos hp]
        exact Hcons _ f (hmono _ f.spelling
          (by rw [contains_insertSet]; simp))
      · rw [discover, if_neg (by simpa using hp)]
        by_contra hc
        rw [Bool.not_eq_false] at hc
        exact absurd (Hanti used _ f (fun x hx => hmono used x hx) hc)
          (by simpa using hp)
    · by_cases hp : p used g = true
      · rw [discover, if_pos hp]
        exact ih (insertSet used g.spelling) f hm
      · rw [discover, if_neg (by simpa using hp)]
        exact ih used f hm

/-- Re-running a discovery pass over the same header binds nothing. -/
theorem discover_rerun (p : List String → FuncDecl → Bool) (pre : String)
    (Hcons : PredConsumed p) (Hanti : PredAntitone p) :
    ∀ (fs : List FuncDecl) (used : List String),
      discover p pre (discover p pre used fs).1 fs =
        ((discover p pre used fs).1, []) :=
  fun fs used => discover_none p pre fs _
    (fun f hf => discover_exhausts p pre Hcons Hanti fs used f hf)

/-- `add_prefixed_methods` ignores insertions of other names. -/
theorem methodPred_insert (sN pre : String) :
    PredInsert (fun u => methodPred u sN pre) := by
  intro u s g hne
  show methodPred (insertSet u s) sN pre g = methodPred u sN pre g
  unfold methodPred
  rw [contains_insertSet, beq_eq_false_iff_ne.mpr hne, Bool.or_false]

/-- `add_prefixed_methods` never rebinds a consumed name. -/
theorem methodPred_consumed (sN pre : String) :
    PredConsumed (fun u => methodPred u sN pre) := by
  intro u f hc
  show methodPred u sN pre f = false
  unfold methodPred
  rw [hc]
  rfl

/-- `add_prefixed_methods` is antitone in the consumed set. -/
theorem methodPred_anti (sN pre : String) :
    PredAntitone (fun u => methodPred u sN pre) := by
  intro u u' f hsub h
  replace h : methodPred u' sN pre f = true := h
  show methodPred u sN pre f = true
  unfold methodPred at h ⊢
  simp only [Bool.and_eq_true] at h ⊢
  refine ⟨⟨⟨?_, h.1.1.2⟩, h.1.2⟩, h.2⟩
  by_contra hc
  have hcc : u.contains f.spelling = true := by
    cases hcc : u.contains f.spelling
    · exact absurd (by rw [hcc]; rfl) hc
    · rfl
  rw [hsub f.spelling hcc] at h
  simpa using h.1.1.1

/-- `add_prefixed_funcs` ignores insertions of other names. -/
theorem funcPred_insert (pre : String) :
    PredInsert (fun u => funcPred u pre) := by
  intro u s g hne
  show funcPred (insertSet u s) pre g = funcPred u pre g
  unfold funcPred
  rw [contains_insertSet, beq_eq_false_iff_ne.mpr hne, Bool.or_false]

/-- `add_prefixed_funcs` never rebinds a consumed name. -/
theorem funcPred_consumed (pre : String) :
    PredConsumed (fun u => funcPred u pre) := by
  intro u f hc
  show funcPred u pre f = false
  unfold funcPred
  rw [hc]
  rfl

/-- `add_prefixed_funcs` is antitone in the consumed set. -/
theorem funcPred_anti (pre : String) :
    PredAntitone (fun u => funcPred u pre) := by
  intro u u' f hsub h
  replace h : funcPred u' pre f = true := h
  show funcPred u pre f = true
  unfold funcPred at h ⊢
  simp only [Bool.and_eq_true] at h ⊢
  refine ⟨⟨?_, h.1.2⟩, h.2⟩
  by_contra hc
  have hcc : u.contains f.spelling = true := by
    cases hcc : u.contains f.spelling
    · exact absurd (by rw [hcc]; rfl) hc
    · rfl
  rw [hsub f.spelling hcc] at h
  simpa using h.1.1

/-- `add_prefixed_methods` is the pure discovery pass interleaved with
wrapper construction over the discovered functions, in order. -/
theorem addPrefixedMethodsLoop_eq :
    ∀ (fs : List FuncDecl) (m : Module) (sN pre : String) (used : List String),
      addPrefixedMethodsLoop m sN pre used fs =
        match buildFuncs m .this
            (discover (fun u => methodPred u sN pre) pre used fs).2 with
        | .error e => .error e
        | .ok (mfs, m') =>
          .ok ((discover (fun u => methodPred u sN pre) pre used fs).1, mfs, m') := by
  intro fs
  induction fs with
  | nil => intro m sN pre used; rfl
  | cons f rest ih =>
    intro m sN pre used
    by_cases hp : methodPred used sN pre f = true
    · have hp' : (fun u => methodPred u sN pre) used f = true := hp
      rcases hmf : moduleFuncInit m f .this (strDrop f.spelling pre.length)
          false [] [] [] with e | ⟨mf, m1⟩
      · simp only [addPrefixedMethodsLoop, if_pos hp, discover, if_pos hp', hmf,
          buildFuncs]
      · simp only [addPrefixedMethodsLoop, if_pos hp, discover, if_pos hp', hmf,
          buildFuncs, ih m1 sN pre (insertSet used f.spelling)]
        rcases hbf : buildFuncs m1 .this
            (discover (fun u => methodPred u sN pre) pre
              (insertSet used f.spelling) rest).2 with e2 | ⟨mfs, m2⟩
        · simp only [hbf]
        · simp only [hbf]
    · have hp' : ¬ (fun u => methodPred u sN pre) used f = true := hp
      rw [addPrefixedMethodsLoop, if_neg hp, discover, if_neg hp']
      exact ih m sN pre used

/-- `add_prefixed_funcs` is the pure discovery pass interleaved with
wrapper construction over the discovered functions, in order. -/
theorem addPrefixedFuncsLoop_eq :
    ∀ (fs : List FuncDecl) (m : Module) (pre : String) (used : List String),
      addPrefixedFuncsLoop m pre used fs =
        match buildFuncs m .staticFn
            (discover (fun u => funcPred u pre) pre used fs).2 with
        | .error e => .error e
        | .ok (mfs, m') =>
          .ok ((discover (fun u => funcPred u pre) pre used fs).1, mfs, m') := by
  intro fs
  induction fs with
  | nil => intro m pre used; rfl
  | cons f rest ih =>
    intro m pre used
    by_cases hp : funcPred used pre f = true
    · have hp' : (fun u => funcPred u pre) used f = true := hp
      rcases hmf : moduleFuncInit m f .staticFn (strDrop f.spelling pre.length)
          false [] [] [] with e | ⟨mf, m1⟩
      · simp only [addPrefixedFuncsLoop, if_pos hp, discover, if_pos hp', hmf,
          buildFuncs]
      · simp only [addPrefixedFuncsLoop, if_pos hp, discover, if_pos hp', hmf,
          buildFuncs, ih m1 pre (insertSet used f.spelling)]
        rcases hbf : buildFuncs m1 .staticFn
            (discover (fun u => funcPred u pre) pre
              (insertSet used f.spelling) rest).2 with e2 | ⟨mfs, m2⟩
        · simp only [hbf]
        · simp only [hbf]
    · have hp' : ¬ (fun u => funcPred u pre) used f = true := hp
      rw [addPrefixedFuncsLoop, if_neg hp, discover, if_neg hp']
      exact ih m pre used

/-- The spellings of a struct's field declarations, in order. -/
def structFieldNames (s : StructDecl) : List String :=
  s.children.filterMap (fun ch => match ch with
    | .fieldDecl c => some c.spelling
    | _ => none)

/-- On success, the field loop collects exactly the struct's field
spellings (appended to whatever was already collected). -/
theorem genStructFields_fields :
    ∀ (children : List StructChild) (m : Module) (ig fields : List String)
      (fs : List String) (ls : List Line) (m' : Module),
      genStructFields m ig fields children = .ok (fs, ls, m') →
      fs = fields ++ children.filterMap (fun ch => match ch with
        | .fieldDecl c => some c.spelling
        | _ => none) := by
  intro children
  induction children with
  | nil =>
    intro m ig fields fs ls m' h
    simp only [genStructFields, Except.ok.injEq, Prod.mk.injEq] at h
    rw [← h.1]
    simp
  | cons ch rest ih =>
    intro m ig fields fs ls m' h
    cases ch with
    | fieldDecl f =>
      rw [genStructFields] at h
      split at h
      · exact absurd h (by simp)
      · split at h
        · rw [ih _ _ _ _ _ _ h]
          simp [List.filterMap_cons, List.append_assoc]
        · split at h
          · exact absurd h (by simp)
          · split at h
            · exact absurd h (by simp)
            · rename_i fs2 ls2 m2 hrest
              simp only [Except.ok.injEq, Prod.mk.injEq] at h
              rw [← h.1, ih _ _ _ _ _ _ hrest]
              simp [List.filterMap_cons, List.append_assoc]
    | structDecl =>
      rw [genStructFields] at h
      rw [ih _ _ _ _ _ _ h]
      simp [List.filterMap_cons]
    | unionDecl =>
      rw [genStructFields] at h
      rw [ih _ _ _ _ _ _ h]
      simp [List.filterMap_cons]
    | otherDecl k loc =>
      rw [genStructFields] at h
      exact absurd h (by simp)

/-- Claim C8 (amended): an `ignore_fields` or `rename_fields` entry naming
a non-field of the struct aborts class construction (the eager sanity
check); a `generic_args` or `default_args` entry aborts function
construction whenever it names something outside the inner call-through
list (the receiver having been dropped for instance methods/destructors and
`self` renamed to `_self`) — hence every entry naming a parameter absent
from the underlying declaration aborts, except in the one corner where the
entry is literally `_self` while a surviving parameter is spelled `self`. -/
theorem c8_unknown_directive :
    (∀ (m : Module) (s : StructDecl) (ig : List String)
       (rn : List (String × String)) (x : String),
      x ∈ ig → x ∉ structFieldNames s →
      ∀ r, genStruct m s ig rn ≠ .ok r) ∧
    (∀ (m : Module) (s : StructDecl) (ig : List String)
       (rn : List (String × String)) (x y : String),
      (x, y) ∈ rn → x ∉ structFieldNames s →
      ∀ r, genStruct m s ig rn ≠ .ok r) ∧
    (∀ (m : Module) (f : FuncDecl) (kind : FuncKind) (nm : String) (gr : Bool)
       (ga : List String) (da : List (String × String)) (tms : List Typemap)
       (k v : String), (k, v) ∈ da → k ∉ innerNames (survive kind f.params) →
      ∀ (r : ModuleFunc) (m' : Module),
        moduleFuncInit m f kind nm gr ga da tms ≠ .ok (r, m')) ∧
    (∀ (m : Module) (f : FuncDecl) (kind : FuncKind) (nm : String) (gr : Bool)
       (ga : List String) (da : List (String × String)) (tms : List Typemap)
       (k : String), k ∈ ga → k ∉ innerNames (survive kind f.params) →
      ∀ (r : ModuleFunc) (m' : Module),
        moduleFuncInit m f kind nm gr ga da tms ≠ .ok (r, m')) ∧
    (∀ (ps : List CCursor) (k : String),
      k ∉ ps.map CCursor.spelling →
      (k ≠ "_self" ∨ "self" ∉ ps.map CCursor.spelling) →
      k ∉ innerNames ps) := by
  have hfieldsOf : ∀ (m : Module) (s : StructDecl) (ig : List String)
      (fs : List String) (ls : List Line) (m1 : Module),
      genStructFields m ig [] s.children = .ok (fs, ls, m1) →
      fs = structFieldNames s := by
    intro m s ig fs ls m1 hgf
    rw [genStructFields_fields s.children m ig [] fs ls m1 hgf]
    simp [structFieldNames]
  refine ⟨?_, ?_, ?_, ?_, ?_⟩
  · intro m s ig rn x hx hnx r h
    unfold genStruct at h
    split at h
    · exact absurd h (by simp)
    · rename_i fs ls m1 hgf
      split at h
      · exact absurd h (by simp)
      · rename_i hig
        refine hig ?_
        simp only [List.any_eq_true]
        refine ⟨x, hx, ?_⟩
        have hc : fs.contains x = false := by
          rw [hfieldsOf m s ig fs ls m1 hgf]
          exact eq_false_of_ne_true (fun hc => hnx (contains_iff.mp hc))
        rw [hc]
        rfl
  · intro m s ig rn x y hx hnx r h
    unfold genStruct at h
    split at h
    · exact absurd h (by simp)
    · rename_i fs ls m1 hgf
      split at h
      · exact absurd h (by simp)
      · split at h
        · exact absurd h (by simp)
        · rename_i hrn
          refine hrn ?_
          simp only [List.any_eq_true]
          refine ⟨(x, y), hx, ?_⟩
          have hc : fs.contains x = false := by
            rw [hfieldsOf m s ig fs ls m1 hgf]
            exact eq_false_of_ne_true (fun hc => hnx (contains_iff.mp hc))
          rw [hc]
          rfl
  · intro m f kind nm gr ga da tms k v hv hnk r m' h
    rcases moduleFuncInit_ok_inv h with ⟨ao, ai, m1, hpa, _, hda, _⟩
    have hin : ai = innerNames (survive kind f.params) :=
      processArgs_inner_eq _ _ _ _ _ _ _ hpa
    have hc := hda (k, v) hv
    rw [hin] at hc
    exact hnk (contains_iff.mp hc)
  · intro m f kind nm gr ga da tms k hv hnk r m' h
    rcases moduleFuncInit_ok_inv h with ⟨ao, ai, m1, hpa, hga, _, _⟩
    have hin : ai = innerNames (survive kind f.params) :=
      processArgs_inner_eq _ _ _ _ _ _ _ hpa
    have hc := hga k hv
    rw [hin] at hc
    exact hnk (contains_iff.mp hc)
  · intro ps k hk hcase hmem
    rw [innerNames, List.mem_map] at hmem
    rcases hmem with ⟨a, hain, ha⟩
    by_cases hs : (a.spelling == "self") = true
    · rw [if_pos hs] at ha
      rcases hcase with hne | hns
      · exact hne ha.symm
      · exact hns (List.mem_map.mpr ⟨a, hain, beq_iff_eq.mp hs⟩)
    · rw [if_neg (by simpa using hs)] at ha
      exact hk (List.mem_map.mpr ⟨a, hain, ha⟩)

/-- A function whose only parameter is spelled `self`. -/
def c8f : FuncDecl :=
  ⟨"f_c", "f.h:1", [],
    [⟨"self", "f.h:1", [], .intTy false "int", none⟩],
    .void false, none⟩

/-- Claim C8 counterexample: the directive `default_args = {"_self": "0"}`
names a parameter that does not exist on the underlying declaration (whose
only parameter is spelled `self`), yet function construction succeeds — the
sanity check compares directive names against the inner list, where `self`
has already been renamed to `_self`. -/
theorem c8_counterexample :
    ("_self" ∉ c8f.params.map CCursor.spelling) ∧
    (moduleFuncInit c10m c8f .staticFn "f" false [] [("_self", "0")] []).toOption.isSome
      = true := by
  constructor
  · decide
  · decide

/-- A concrete struct with a single field `size`. -/
def c8s : StructDecl :=
  ⟨"box_t", [.fieldDecl ⟨"size", "box.h:2", [], .intTy false "int", none⟩]⟩

/-- Witness for the C8 theorem: ignoring the non-field `internal` aborts
class construction. -/
theorem c8_witness :
    genStruct c10m c8s ["internal"] [] ≠ .ok ([], c10m) :=
  c8_unknown_directive.1 c10m c8s ["internal"] [] "internal"
    (by decide) (by decide) ([], c10m)

/-- A concrete instance method whose second parameter is spelled `self`. -/
def c9f : FuncDecl :=
  ⟨"box_steal", "box.h:9", [],
    [⟨"box", "box.h:9", [], .pointer false (.recordTy false "box_t" "box_t"), none⟩,
     ⟨"self", "box.h:9", [], .intTy false "int", none⟩],
    .void false, none⟩

/-- The wrapper built for `c9f`: `self` appears as `_self` in both the
visible signature and the call-through. -/
def c9r : ModuleFunc :=
  ⟨[Line.mk 0 "void steal(int _self) \x7b",
    Line.mk 1 "return box_steal($self, _self);",
    Line.mk 0 "\x7d"],
   [], []⟩

/-- Witness for the C9 theorem at a concrete bound function. -/
theorem c9_witness :
    Line.mk 1 ("return " ++ c9f.spelling ++ "(" ++
      joinComma ("$self" :: innerNames (survive .this c9f.params)) ++ ");")
      ∈ c9r.writerLines :=
  c9_self_rename.2.2.2.2.2 c10m c10m c9f "steal" [] [] [] c9r (by decide)

/-- Witness for the C7 theorem at a concrete bound function. -/
theorem c7_witness :
    (c7r.contractLines = [] ↔ nonnullArgs (survive .ctor c7f.params) = []) ∧
    (nonnullArgs (survive .ctor c7f.params) ≠ [] →
      ∃ outerStr, c7r.contractLines =
        [Line.mk 0 ("%contract " ++ "Box" ++ "(" ++ outerStr ++ ") \x7b"),
         Line.mk 0 "require:"] ++
        (nonnullArgs (survive .ctor c7f.params)).map
          (fun s => Line.mk 1 (s ++ " != NULL;")) ++
        [Line.mk 0 "\x7d"]) :=
  c7_nonnull_contract c10m c10m c7f .ctor "Box" false [] [] [] c7r (by decide)

/-- Claim C6: a bulk prefix-discovery pass binds exactly the functions that
are (a) not yet consumed, (b) whose name starts with the prefix, (c) that
carry the exported (`RZ_API`) attribute, and — for method discovery — (d)
whose first parameter is a pointer whose canonical pointee declaration is
the target struct; each bound function is renamed to its name with the
prefix removed and marked consumed, so a name consumed by an explicit
`add_method` is never bound, and re-running the same pass binds nothing.
The interleaved wrapper construction processes exactly the discovered
functions, in order. -/
theorem c6_prefix_discovery :
    (∀ (sN pre : String) (used : List String) (fs : List FuncDecl),
      (fs.map FuncDecl.spelling).Nodup →
      (discover (fun u => methodPred u sN pre) pre used fs).2 =
        (fs.filter (methodPred used sN pre)).map
          (fun f => (strDrop f.spelling pre.length, f))) ∧
    (∀ (pre : String) (used : List String) (fs : List FuncDecl),
      (fs.map FuncDecl.spelling).Nodup →
      (discover (fun u => funcPred u pre) pre used fs).2 =
        (fs.filter (funcPred used pre)).map
          (fun f => (strDrop f.spelling pre.length, f))) ∧
    (∀ (sN pre : String) (used : List String) (fs : List FuncDecl) (x : String),
      (discover (fun u => methodPred u sN pre) pre used fs).1.contains x = true ↔
        used.contains x = true ∨
        x ∈ ((discover (fun u => methodPred u sN pre) pre used fs).2).map
          (fun rf => rf.2.spelling)) ∧
    (∀ (sN pre : String) (used : List String) (fs : List FuncDecl) (x : String),
      used.contains x = true →
      x ∉ ((discover (fun u => methodPred u sN pre) pre used fs).2).map
        (fun rf => rf.2.spelling)) ∧
    (∀ (pre : String) (used : List String) (fs : List FuncDecl) (x : String),
      used.contains x = true →
      x ∉ ((discover (fun u => funcPred u pre) pre used fs).2).map
        (fun rf => rf.2.spelling)) ∧
    (∀ (sN pre : String) (used : List String) (fs : List FuncDecl),
      discover (fun u => methodPred u sN pre) pre
        (discover (fun u => methodPred u sN pre) pre used fs).1 fs =
        ((discover (fun u => methodPred u sN pre) pre used fs).1, [])) ∧
    (∀ (pre : String) (used : List String) (fs : List FuncDecl),
      discover (fun u => funcPred u pre) pre
        (discover (fun u => funcPred u pre) pre used fs).1 fs =
        ((discover (fun u => funcPred u pre) pre used fs).1, [])) ∧
    (∀ (m : Module) (sN pre : String) (used : List String) (fs : List FuncDecl),
      addPrefixedMethodsLoop m sN pre used fs =
        match buildFuncs m .this
            (discover (fun u => methodPred u sN pre) pre used fs).2 with
        | .error e => .error e
        | .ok (mfs, m') =>
          .ok ((discover (fun u => methodPred u sN pre) pre used fs).1, mfs, m')) ∧
    (∀ (m : Module) (pre : String) (used : List String) (fs : List FuncDecl),
      addPrefixedFuncsLoop m pre used fs =
        match buildFuncs m .staticFn
            (discover (fun u => funcPred u pre) pre used fs).2 with
        | .error e => .error e
        | .ok (mfs, m') =>
          .ok ((discover (fun u => funcPred u pre) pre used fs).1, mfs, m')) ∧
    (∀ (m : Module) (c : ModuleClass) (h : Header) (fname rename : String)
       (da : List (String × String)) (tms : List Typemap) (c' : ModuleClass)
       (h' : Header) (m' : Module),
      addMethod m c h fname rename da tms = .ok (c', h', m') →
      h'.used = insertSet h.used fname ∧ fname ∈ h'.used) := by
  refine ⟨?_, ?_, ?_, ?_, ?_, ?_, ?_, ?_, ?_, ?_⟩
  · intro sN pre used fs hnd
    exact discover_matches _ pre (methodPred_insert sN pre) fs used hnd
  · intro pre used fs hnd
    exact discover_matches _ pre (funcPred_insert pre) fs used hnd
  · intro sN pre used fs x
    exact discover_used_mem _ pre fs used x
  · intro sN pre used fs x hx
    exact discover_not_bound _ pre (methodPred_consumed sN pre) fs used x hx
  · intro pre used fs x hx
    exact discover_not_bound _ pre (funcPred_consumed pre) fs used x hx
  · intro sN pre used fs
    exact discover_rerun _ pre (methodPred_consumed sN pre) (methodPred_anti sN pre) fs used
  · intro pre used fs
    exact discover_rerun _ pre (funcPred_consumed pre) (funcPred_anti pre) fs used
  · intro m sN pre used fs
    exact addPrefixedMethodsLoop_eq fs m sN pre used
  · intro m pre used fs
    exact addPrefixedFuncsLoop_eq fs m pre used
  · intro m c h fname rename da tms c' h' m' hab
    unfold addMethod at hab
    split at hab
    · exact absurd hab (by simp)
    · split at hab
      · exact absurd hab (by simp)
      · simp only [Except.ok.injEq, Prod.mk.injEq] at hab
        refine ⟨?_, ?_⟩
        · rw [← hab.2.1]
        · rw [← hab.2.1]
          exact mem_insertSet.mpr (Or.inr rfl)

/-- The spec scenario header functions: `box_new` (already consumed),
`box_free` (static candidate), `box_resize` (instance-method candidate). -/
def boxNew : FuncDecl := ⟨"box_new", "box.h:1", ["RZ_API"], [],
  .pointer false (.recordTy false "box_t" "box_t"), none⟩

/-- `box_free(void *)`: exported, prefixed, but not a method candidate. -/
def boxFree : FuncDecl := ⟨"box_free", "box.h:2", ["RZ_API"],
  [⟨"ptr", "box.h:2", [], .pointer false (.void false), none⟩],
  .void false, none⟩

/-- `box_resize(box_t *, int)`: an instance-method candidate. -/
def boxResize : FuncDecl := ⟨"box_resize", "box.h:3", ["RZ_API"],
  [⟨"box", "box.h:3", [], .pointer false (.recordTy false "box_t" "box_t"), none⟩,
   ⟨"n", "box.h:3", [], .intTy false "int", none⟩],
  .void false, none⟩

/-- The header function list of the scenario. -/
def boxFuncs : List FuncDecl := [boxNew, boxFree, boxResize]

/-- Witness for the C6 theorem on the spec scenario: with `box_new` already
consumed, method discovery over `box_` binds exactly `box_resize`, renamed
to `resize`. -/
theorem c6_witness :
    (discover (fun u => methodPred u "box_t" "box_") "box_" ["box_new"] boxFuncs).2 =
      (boxFuncs.filter (methodPred ["box_new"] "box_t" "box_")).map
        (fun f => (strDrop f.spelling "box_".length, f)) ∧
    (boxFuncs.filter (methodPred ["box_new"] "box_t" "box_")).map
        (fun f => (strDrop f.spelling "box_".length, f)) = [("resize", boxResize)] :=
  ⟨c6_prefix_discovery.1 "box_t" "box_" ["box_new"] boxFuncs (by decide), by decide⟩

end RzBindgen
